import Mathlib

/-!
Shallow embedding of the coordinate-frame read/write subsystem of
`mne_bids/dig.py` (functions `_handle_electrodes_reading`,
`_handle_coordsystem_reading`, `_get_impedances`, `_electrodes_tsv`,
`_coordsystem_json`, `_write_dig_bids`, `_read_dig_bids`).

Modelling conventions:
* machine floats are rationals; the Python `np.nan` value is modelled by
  `none` in `Option ℚ` (a "Python float" is an `Option ℚ`);
* fallible Python code (exceptions) is modelled with `Except String`;
  the string records the exception class raised by the Python code;
* the `warn` side channel is modelled by a returned list of `Warn` values;
* on-disk files are modelled by the values the generic tabular/JSON
  writer collaborators would serialize: writing a file is modelled as
  emitting a `(path, content)` pair;
* collaborators that live outside `dig.py` (the frame/unit registry from
  `mne_bids.config`, `_extract_landmarks`, `_scale_coord_to_meters`, the
  `BIDSPath` entity codec, `_check_ch_locs`) are modelled from the spec;
  each such definition carries a doc comment saying so.
-/

namespace MneBids

instance {ε α : Type} [DecidableEq ε] [DecidableEq α] :
    DecidableEq (Except ε α) := fun a b =>
  match a, b with
  | .ok x, .ok y =>
      if h : x = y then .isTrue (congrArg Except.ok h)
      else .isFalse (fun hc => h (Except.ok.inj hc))
  | .error x, .error y =>
      if h : x = y then .isTrue (congrArg Except.error h)
      else .isFalse (fun hc => h (Except.error.inj hc))
  | .ok _, .error _ => .isFalse (fun hc => Except.noConfusion hc)
  | .error _, .ok _ => .isFalse (fun hc => Except.noConfusion hc)

/-- An ASCII letter lowered (the effect of Python `str.lower` on the
characters occurring in BIDS frame names and entity values). -/
def lowerChar (c : Char) : Char :=
  match c with
  | 'A' => 'a' | 'B' => 'b' | 'C' => 'c' | 'D' => 'd' | 'E' => 'e'
  | 'F' => 'f' | 'G' => 'g' | 'H' => 'h' | 'I' => 'i' | 'J' => 'j'
  | 'K' => 'k' | 'L' => 'l' | 'M' => 'm' | 'N' => 'n' | 'O' => 'o'
  | 'P' => 'p' | 'Q' => 'q' | 'R' => 'r' | 'S' => 's' | 'T' => 't'
  | 'U' => 'u' | 'V' => 'v' | 'W' => 'w' | 'X' => 'x' | 'Y' => 'y'
  | 'Z' => 'z'
  | _ => c

/-- Python `s.lower()` on an (ASCII) string. -/
def pyLower (s : String) : String :=
  ⟨s.data.map lowerChar⟩

/-- A numeric TSV cell: a rational number or the literal "n/a" marker. -/
inductive Cell where
  | num (q : ℚ)
  | na
deriving DecidableEq, Repr

/-- A dynamically typed Python value as it appears in the electrode
coordinate columns after `_float_or_nan` conversion: either a float
(`none` = NaN) or a string.  Needed to model faithfully the Python
comparison `float != "n/a"`. -/
inductive PyVal where
  | pfloat (v : Option ℚ)
  | pstr (s : String)
deriving DecidableEq, Repr

/-- An impedance cell produced by `_get_impedances`: a number (kOhm), a
NaN (unrecognized unit), or the literal string `n/a`. -/
inductive ImpVal where
  | num (q : ℚ)
  | nanv
  | str (s : String)
deriving DecidableEq, Repr

/-- FIFF digitized-point kind: cardinal (anatomical landmark). -/
def FIFFV_POINT_CARDINAL : ℕ := 1

/-- FIFF digitized-point kind: head-position-indicator coil. -/
def FIFFV_POINT_HPI : ℕ := 2

/-- FIFF digitized-point kind: EEG electrode. -/
def FIFFV_POINT_EEG : ℕ := 3

/-- FIFF cardinal-point identifier for the left preauricular point. -/
def FIFFV_POINT_LPA : ℕ := 1

/-- FIFF cardinal-point identifier for the nasion. -/
def FIFFV_POINT_NASION : ℕ := 2

/-- FIFF cardinal-point identifier for the right preauricular point. -/
def FIFFV_POINT_RPA : ℕ := 3

/-- FIFF coordinate-frame code for the unknown frame. -/
def FIFFV_COORD_UNKNOWN : ℕ := 0

/-- FIFF coordinate-frame code for the MEG-device frame. -/
def FIFFV_COORD_DEVICE : ℕ := 1

/-- FIFF coordinate-frame code for the head frame. -/
def FIFFV_COORD_HEAD : ℕ := 4

/-- FIFF coordinate-frame code for the (surface RAS) MRI frame. -/
def FIFFV_COORD_MRI : ℕ := 5

/-- One digitized point of `raw.info['dig']`: kind tag, numeric
identifier, FIFF coordinate-frame code and 3D position `r`. -/
structure DigPoint where
  kind : ℕ
  ident : ℕ
  coord_frame : ℕ
  r : ℚ × ℚ × ℚ
deriving DecidableEq, Repr

/-- One channel of `raw.info['chs']`: its name and its 3D location.
`loc = none` models a channel whose location is absent/invalid, i.e. one
for which the collaborator `_check_ch_locs` returns `False`. -/
structure Channel where
  ch_name : String
  loc : Option (ℚ × ℚ × ℚ)
deriving DecidableEq, Repr

/-- An attached positioned-channel overlay (`mne.channels.DigMontage`
restricted to what `dig.py` puts into it): the channel-position mapping
(per axis `none` = NaN) and the coordinate-frame string. -/
structure Montage where
  ch_pos : List (String × (Option ℚ × Option ℚ × Option ℚ))
  coord_frame : String
deriving DecidableEq, Repr

/-- The in-memory recording object, restricted to the state `dig.py`
reads and writes: channel list, digitized-point list (`none` models
`raw.info['dig'] is None`), bad-channel names, impedances (present only
for recordings where `hasattr(raw, 'impedances')`, mapping channel name
to a value and a unit string), and the montage attached by
`raw.set_montage`. -/
structure Raw where
  chs : List Channel
  dig : Option (List DigPoint)
  bads : List String
  impedances : Option (List (String × (ℚ × String)))
  montage : Option Montage
deriving DecidableEq, Repr

/-- Python `raw.ch_names`. -/
def Raw.ch_names (raw : Raw) : List String :=
  raw.chs.map (·.ch_name)

/-- Lookup in a Python dict modelled as an association list
(`d.get(k, None)`): first entry with the given key. -/
def dget {α : Type} (d : List (String × α)) (k : String) : Option α :=
  (d.find? (fun kv => kv.1 = k)).map (·.2)

/-- Modelled from the spec (the registry lives in `mne_bids.config`,
which is not part of the analysed sources): the closed set of accepted
BIDS coordinate units. -/
def BIDS_COORDINATE_UNITS : List String := ["m", "cm", "mm"]

/-- Modelled from the spec: the closed set of externally accepted iEEG
coordinate-frame names (scanner-anatomical `acpc`, pixel-based, other). -/
def BIDS_IEEG_COORDINATE_FRAMES : List String := ["acpc", "pixels", "other"]

/-- Modelled from the spec: the closed set of externally accepted MEG
coordinate-frame names (device-native vendor frames plus `other`). -/
def BIDS_MEG_COORDINATE_FRAMES : List String :=
  ["ctf", "elektaneuromag", "4dbti", "kityokogawa", "chietiitab", "other"]

/-- Modelled from the spec: the closed set of externally accepted EEG
coordinate-frame names (only the head-centered `captrak`). -/
def BIDS_EEG_COORDINATE_FRAMES : List String := ["captrak"]

/-- Modelled from the spec: external (BIDS) → internal (MNE) coordinate
frame map. -/
def BIDS_TO_MNE_FRAMES : List (String × String) :=
  [("ctf", "ctf_head"), ("elektaneuromag", "head"), ("4dbti", "head"),
   ("kityokogawa", "head"), ("chietiitab", "head"), ("captrak", "head"),
   ("acpc", "mri"), ("other", "unknown")]

/-- Modelled from the spec: internal (MNE) → external (BIDS) coordinate
frame map.  The repository's test suite pins `mri ↦ mri` (an iEEG write
from the internal `mri` frame ends up at `space-mri` paths) and
`unknown ↦ Other`. -/
def MNE_TO_BIDS_FRAMES : List (String × String) :=
  [("ctf_head", "CTF"), ("head", "CapTrak"), ("mri", "mri"),
   ("unknown", "Other")]

/-- Modelled from the spec: FIFF integer coordinate-frame code →
internal MNE frame-name string. -/
def MNE_FRAME_TO_STR : List (ℕ × String) :=
  [(FIFFV_COORD_UNKNOWN, "unknown"), (FIFFV_COORD_DEVICE, "meg"),
   (FIFFV_COORD_HEAD, "head"), (FIFFV_COORD_MRI, "mri")]

/-- Lookup in an integer-keyed Python dict modelled as an association
list. -/
def ndget {α : Type} (d : List (ℕ × α)) (k : ℕ) : Option α :=
  (d.find? (fun kv => kv.1 = k)).map (·.2)

/-- Modelled from the spec: human-readable descriptions of the
standardized frame names; lookups default to "n/a". -/
def COORD_FRAME_DESCRIPTIONS : List (String × String) :=
  [("captrak", "The X-axis goes from the left preauricular point to the right preauricular point, the Y-axis goes through the nasion, the Z-axis points up."),
   ("acpc", "The origin of the coordinate system is at the Anterior Commissure and the negative y-axis is passing through the Posterior Commissure.")]

/-- Modelled from the spec (`_scale_coord_to_meters` lives in
`mne_bids.utils`): rescales one 3D coordinate (axes are floats,
`none` = NaN, and NaN rescales to NaN) into meters; inputs declared in
`cm`/`mm` are divided by 100/1000 respectively, any other unit is
returned unchanged. -/
def _scale_coord_to_meters (p : Option ℚ × Option ℚ × Option ℚ)
    (unit : String) : Option ℚ × Option ℚ × Option ℚ :=
  if unit = "cm" then
    (p.1.map (· / 100), p.2.1.map (· / 100), p.2.2.map (· / 100))
  else if unit = "mm" then
    (p.1.map (· / 1000), p.2.1.map (· / 1000), p.2.2.map (· / 1000))
  else p

/-- Modelled from the spec: the `BIDSPath` entity codec collaborator.
A path is a structured record of its entity tags plus suffix, extension
and root; encoding renders the tags into the canonical basename and
decoding (`get_entities_from_fname`) projects them back out. -/
structure BIDSPath where
  subject : Option String := none
  session : Option String := none
  acquisition : Option String := none
  space : Option String := none
  suffix : Option String := none
  extension : Option String := none
  root : String := ""
deriving DecidableEq, Repr

/-- Modelled from the spec: the entity tags (`sub-…`, `ses-…`, `acq-…`,
`space-…`) rendered, in canonical order, into a path's basename. -/
def BIDSPath.entityTags (p : BIDSPath) : List String :=
  (p.subject.map (fun v => "sub-" ++ v)).toList ++
  (p.session.map (fun v => "ses-" ++ v)).toList ++
  (p.acquisition.map (fun v => "acq-" ++ v)).toList ++
  (p.space.map (fun v => "space-" ++ v)).toList

/-- Modelled from the spec: the canonical basename rendered from a
path's entities, suffix and extension. -/
def BIDSPath.basename (p : BIDSPath) : String :=
  String.intercalate "_" (p.entityTags ++ p.suffix.toList) ++
    (p.extension.getD "")

/-- Modelled from the spec: `get_entities_from_fname` decodes the
entity tags out of a filename; on the structured path model this is the
projection. -/
def get_entities_from_fname (p : BIDSPath) : BIDSPath := p

/-- Keys of a Python dict comprehension `{d['ident']: d for d in l}`:
first-occurrence order, one entry per distinct identifier. -/
def identKeys : List ℕ → List ℕ
  | [] => []
  | a :: as => a :: ((identKeys as).filter (fun b => b ≠ a))

/-- Value of a Python dict comprehension `{d['ident']: d for d in l}` at
one key: the last element carrying that identifier wins. -/
def lastWithIdent (l : List DigPoint) (i : ℕ) : Option DigPoint :=
  (l.filter (fun d => d.ident = i)).getLast?

/-- The Python dict comprehension `{d['ident']: d for d in dig if
d['kind'] == kind}` as an association list. -/
def digByIdent (dig : List DigPoint) (kind : ℕ) : List (ℕ × DigPoint) :=
  let sel := dig.filter (fun d => d.kind = kind)
  (identKeys (sel.map (·.ident))).filterMap
    (fun i => (lastWithIdent sel i).map (fun d => (i, d)))

/-- Modelled from the spec (`_extract_landmarks` lives in
`mne_bids.utils`): pulls the three anatomical landmarks out of the
digitized-point list, mapping the fixed labels `NAS`/`LPA`/`RPA` (from
the cardinal idents) to their 3D coordinates. -/
def _extract_landmarks (dig : List DigPoint) : List (String × (ℚ × ℚ × ℚ)) :=
  let landmarks := digByIdent dig FIFFV_POINT_CARDINAL
  ((ndget landmarks FIFFV_POINT_NASION).map
      (fun d => ("NAS", d.r))).toList ++
  ((ndget landmarks FIFFV_POINT_LPA).map
      (fun d => ("LPA", d.r))).toList ++
  ((ndget landmarks FIFFV_POINT_RPA).map
      (fun d => ("RPA", d.r))).toList

/-- The `coil<N>` labelled head-localization-coil coordinates that
`_coordsystem_json` appends to the landmark mapping (the loop over
`hpi.keys()`). -/
def coilCoords (dig : List DigPoint) : List (String × (ℚ × ℚ × ℚ)) :=
  (digByIdent dig FIFFV_POINT_HPI).map
    (fun kv => ("coil" ++ toString kv.1, kv.2.r))

/-- One warning emitted through the `warn` side channel. -/
inductive Warn where
  | nanChannels (names : List String)
  | inconsistentFrames
  | ieegFrameMissing
  | eegSkip
  | megFrameNotAccepted
  | megFrameOther
  | ieegFrameNotAccepted
  | ieegPixels
  | ieegDefaultUnknown (frame : String)
  | eegFrameNotAccepted
  | unitNotAccepted (unit : String)
deriving DecidableEq, Repr

/-- Python `_get_impedances(raw, names)`: per channel name, the
impedance in kOhm (`no_info` for absent names, giving the literal
string `n/a` since `'n/a' * 1` is string repetition in Python; an
unrecognized unit multiplies by `np.nan`, giving NaN). -/
def _get_impedances (raw : Raw) (names : List String) : List ImpVal :=
  match raw.impedances with
  | none => names.map (fun _ => ImpVal.str "n/a")
  | some imps =>
      names.map (fun name =>
        match dget imps name with
        | none => ImpVal.str "n/a"
        | some (v, u) =>
            if u = "kOhm" then ImpVal.num v
            else if u = "Ohm" then ImpVal.num (v * (1 / 1000))
            else ImpVal.nanv)

/-- The electrodes.tsv file content: ordered columns as built by
`_electrodes_tsv` (`size` present only for iEEG, `impedance` present
only when the recording exposes impedances). -/
structure ElectrodesTSV where
  name : List String
  x : List Cell
  y : List Cell
  z : List Cell
  size : Option (List Cell)
  impedance : Option (List ImpVal)
deriving DecidableEq, Repr

/-- Well-formedness of a TSV table: all coordinate columns have the
same number of rows as the name column (which `_from_tsv` guarantees
for files produced by the generic tabular writer). -/
def ElectrodesTSV.WF (t : ElectrodesTSV) : Prop :=
  t.x.length = t.name.length ∧ t.y.length = t.name.length ∧
    t.z.length = t.name.length

instance (t : ElectrodesTSV) : Decidable t.WF := by
  unfold ElectrodesTSV.WF; infer_instance

/-- Python `_electrodes_tsv(raw, fname, datatype, …)` up to the final
`_write_tsv` call: builds the column data written to electrodes.tsv.
Channels failing `_check_ch_locs` get `n/a` in all three coordinate
columns; a `size` column of `n/a` is added for iEEG; datatypes other
than `ieeg`/`eeg` raise `RuntimeError`; an `impedance` column is added
when the recording has impedances. -/
def _electrodes_tsv (raw : Raw) (datatype : String) :
    Except String ElectrodesTSV :=
  let names := raw.chs.map (·.ch_name)
  let x := raw.chs.map (fun ch => match ch.loc with
    | some p => Cell.num p.1
    | none => Cell.na)
  let y := raw.chs.map (fun ch => match ch.loc with
    | some p => Cell.num p.2.1
    | none => Cell.na)
  let z := raw.chs.map (fun ch => match ch.loc with
    | some p => Cell.num p.2.2
    | none => Cell.na)
  if datatype = "ieeg" then
    .ok { name := names, x := x, y := y, z := z,
          size := some (names.map (fun _ => Cell.na)),
          impedance := raw.impedances.map (fun _ => _get_impedances raw names) }
  else if datatype = "eeg" then
    .ok { name := names, x := x, y := y, z := z, size := none,
          impedance := raw.impedances.map (fun _ => _get_impedances raw names) }
  else
    .error "RuntimeError"

/-- A JSON value occurring in a coordsystem.json document: a string or
a label→coordinate mapping. -/
inductive JVal where
  | s (v : String)
  | coords (v : List (String × (ℚ × ℚ × ℚ)))
deriving DecidableEq, Repr

/-- Python `_coordsystem_json(raw, unit, orient, coordsystem_name,
fname, datatype, …)` up to the final `_write_json` call: builds the
coordsystem.json document.  Raises `ValueError` when the digitized
points span more than one coordinate frame (the `len(set(...)) > 1`
check). -/
def _coordsystem_json (raw : Raw) (unit orient coordsystem_name : String)
    (datatype : String) : Except String (List (String × JVal)) :=
  let dig := raw.dig.getD []
  let coords := _extract_landmarks dig ++ coilCoords dig
  if 1 < ((dig.map (·.coord_frame)).toFinset.card) then
    .error "ValueError"
  else
    let coordsystem_desc :=
      (dget COORD_FRAME_DESCRIPTIONS coordsystem_name).getD "n/a"
    if datatype = "meg" then
      .ok [("MEGCoordinateSystem", JVal.s coordsystem_name),
           ("MEGCoordinateUnits", JVal.s unit),
           ("MEGCoordinateSystemDescription", JVal.s coordsystem_desc),
           ("HeadCoilCoordinates", JVal.coords coords),
           ("HeadCoilCoordinateSystem", JVal.s orient),
           ("HeadCoilCoordinateUnits", JVal.s unit)]
    else if datatype = "eeg" then
      .ok [("EEGCoordinateSystem", JVal.s coordsystem_name),
           ("EEGCoordinateUnits", JVal.s unit),
           ("EEGCoordinateSystemDescription", JVal.s coordsystem_desc),
           ("AnatomicalLandmarkCoordinates", JVal.coords coords),
           ("AnatomicalLandmarkCoordinateSystem", JVal.s coordsystem_name),
           ("AnatomicalLandmarkCoordinateUnits", JVal.s unit)]
    else if datatype = "ieeg" then
      .ok [("iEEGCoordinateSystem", JVal.s coordsystem_name),
           ("iEEGCoordinateSystemDescription", JVal.s coordsystem_desc),
           ("iEEGCoordinateUnits", JVal.s unit)]
    else
      .ok []

/-- Python `_float_or_nan(val)`: the literal `n/a` becomes NaN, any
other cell is parsed as a float.  The result is a Python float (a
`PyVal.pfloat`), never a string. -/
def _float_or_nan (c : Cell) : PyVal :=
  match c with
  | .na => .pfloat none
  | .num q => .pfloat (some q)

/-- The float carried by a `PyVal` (strings never occur after
`_float_or_nan`; they are mapped to NaN here). -/
def pyFloat (v : PyVal) : Option ℚ :=
  match v with
  | .pfloat q => q
  | .pstr _ => none

/-- The channel-name correspondence check at the top of
`_handle_electrodes_reading`: raises `RuntimeError` unless the raw and
TSV name sequences match, tolerating only a trailing synthetic
`STI 014` channel in the raw data; `ch_names_raw[-1]` on an empty list
raises `IndexError`. -/
def checkChNames (ch_names_raw ch_names_tsv : List String) :
    Except String Unit :=
  if ch_names_raw = ch_names_tsv then .ok ()
  else
    match ch_names_raw.getLast? with
    | none => .error "IndexError"
    | some last =>
        if last = "STI 014" ∧ ch_names_raw.dropLast = ch_names_tsv then
          .ok ()
        else .error "RuntimeError"

/-- The list comprehension `[x for i, x in enumerate(ch_names_raw) if
electrodes_dict['x'][i] != "n/a"]`: walks the names with an explicit
index into the converted `x` column, raising `IndexError` when the
index runs past the column. -/
def pyFilter (xs : List PyVal) : List String → ℕ → Except String (List String)
  | [], _ => .ok []
  | n :: ns, i =>
    match xs.get? i with
    | none => .error "IndexError"
    | some v =>
        match pyFilter xs ns (i + 1) with
        | .error e => .error e
        | .ok rest => .ok (if v ≠ PyVal.pstr "n/a" then n :: rest else rest)

/-- Python `np.c_[xs, ys, zs]` on three float columns: the row list;
raises on column-length mismatch. -/
def np_c (xs ys zs : List (Option ℚ)) :
    Except String (List (Option ℚ × Option ℚ × Option ℚ)) :=
  if xs.length = ys.length ∧ ys.length = zs.length then
    .ok (xs.zipWith (fun x yz => (x, yz)) (ys.zip zs))
  else .error "ValueError"

/-- Whether a row of coordinates has any NaN axis
(`any(np.isnan(ch_coord))`). -/
def hasNan (p : Option ℚ × Option ℚ × Option ℚ) : Bool :=
  p.1.isNone || p.2.1.isNone || p.2.2.isNone

/-- One insertion into a Python dict modelled as an association list:
an existing key is overwritten in place, a new key is appended. -/
def dictInsert {α : Type} (d : List (String × α)) (k : String) (v : α) :
    List (String × α) :=
  if d.any (fun kv => kv.1 = k) then
    d.map (fun kv => if kv.1 = k then (k, v) else kv)
  else d ++ [(k, v)]

/-- Python `dict(l)` on a list of key/value pairs: left-to-right
insertion, later values for a repeated key overwrite earlier ones. -/
def dictOf {α : Type} (l : List (String × α)) : List (String × α) :=
  l.foldl (fun d kv => dictInsert d kv.1 kv.2) []

/-- Python `_handle_electrodes_reading(electrodes_fname, coord_frame,
coord_unit, raw, verbose)`: validates the name correspondence, converts
the coordinate columns with `_float_or_nan`, applies the (ineffective)
`!= "n/a"` filter, warns about channels that have a NaN coordinate and
are not marked bad, rescales to meters and attaches the montage. -/
def _handle_electrodes_reading (t : ElectrodesTSV)
    (coord_frame coord_unit : String) (raw : Raw) :
    Except String (Raw × List Warn) :=
  let ch_names_raw := raw.ch_names
  let ch_names_tsv := t.name
  match checkChNames ch_names_raw ch_names_tsv with
  | .error e => .error e
  | .ok _ =>
    let xs := t.x.map _float_or_nan
    let ys := t.y.map _float_or_nan
    let zs := t.z.map _float_or_nan
    match pyFilter xs ch_names_raw 0 with
    | .error e => .error e
    | .ok names2 =>
      match np_c (xs.map pyFloat) (ys.map pyFloat) (zs.map pyFloat) with
      | .error e => .error e
      | .ok ch_locs =>
        let nan_chs := ((names2.zip ch_locs).filter
          (fun p => hasNan p.2 && !(decide (p.1 ∈ raw.bads)))).map (·.1)
        let warns := if nan_chs.isEmpty then ([] : List Warn)
          else [Warn.nanChannels nan_chs]
        let ch_locs2 := ch_locs.map
          (fun p => _scale_coord_to_meters p coord_unit)
        let ch_pos := dictOf (names2.zip ch_locs2)
        .ok ({ raw with montage := some ⟨ch_pos, coord_frame⟩ }, warns)

/-- Python `_handle_coordsystem_reading(coordsystem_fpath, datatype,
verbose)`: extracts the (lower-cased) coordinate-frame name and the
coordinate unit from the modality-specific keys of coordsystem.json;
a missing required key raises `KeyError`, a non-string frame value
raises on `.lower()`, and a datatype outside meg/eeg/ieeg leaves the
variables unassigned (`NameError`). -/
def _handle_coordsystem_reading (cjson : List (String × JVal))
    (datatype : String) : Except String (String × String) :=
  let get2 := fun (kSys kUnit : String) =>
    match dget cjson kSys with
    | none => Except.error "KeyError"
    | some (JVal.coords _) => Except.error "AttributeError"
    | some (JVal.s f) =>
        match dget cjson kUnit with
        | none => Except.error "KeyError"
        | some (JVal.coords _) => Except.error "TypeError"
        | some (JVal.s u) => Except.ok (pyLower f, u)
  if datatype = "meg" then get2 "MEGCoordinateSystem" "MEGCoordinateUnits"
  else if datatype = "eeg" then get2 "EEGCoordinateSystem" "EEGCoordinateUnits"
  else if datatype = "ieeg" then
    get2 "iEEGCoordinateSystem" "iEEGCoordinateUnits"
  else .error "NameError"

/-- Python `_read_dig_bids(electrodes_fpath, coordsystem_fpath, raw,
datatype, verbose)`: reads the descriptor, resolves the frame through
the per-modality policy (including the iEEG `other`/space-entity
fallback), rejects unaccepted units by forcing the frame to `None`, and
attaches the electrode positions only when a frame survived.
`frame_resolution` is the per-modality if/elif chain of
`_read_dig_bids` resolving the descriptor frame (plus the path-encoded
space entity) to an internal frame, with its warnings. -/
def frame_resolution (datatype coord_frame0 space : String) :
    Option String × List Warn :=
  if datatype = "meg" then
    if coord_frame0 ∉ BIDS_MEG_COORDINATE_FRAMES then
      (none, [.megFrameNotAccepted])
    else if coord_frame0 = "other" then (none, [.megFrameOther])
    else (dget BIDS_TO_MNE_FRAMES coord_frame0, [])
  else if datatype = "ieeg" then
    if coord_frame0 ∉ BIDS_IEEG_COORDINATE_FRAMES then
      (none, [.ieegFrameNotAccepted])
    else if coord_frame0 = "pixels" then (none, [.ieegPixels])
    else if coord_frame0 = "acpc" then
      (dget BIDS_TO_MNE_FRAMES coord_frame0, [])
    else if coord_frame0 = "other" then
      if space ∉ BIDS_TO_MNE_FRAMES.map (·.1) then
        (dget BIDS_TO_MNE_FRAMES space, [.ieegDefaultUnknown coord_frame0])
      else (dget BIDS_TO_MNE_FRAMES space, [])
    else (some coord_frame0, [])
  else if datatype = "eeg" then
    if coord_frame0 ∉ BIDS_EEG_COORDINATE_FRAMES then
      (none, [.eegFrameNotAccepted])
    else (dget BIDS_TO_MNE_FRAMES coord_frame0, [])
  else (some coord_frame0, [])

/-- Python `_read_dig_bids`: reads the descriptor, applies
`frame_resolution`, rejects unaccepted units by forcing the frame to
`None`, and attaches the electrode positions only when a frame
survived. -/
def _read_dig_bids (electrodes_fpath : BIDSPath) (tsv : ElectrodesTSV)
    (cjson : List (String × JVal)) (raw : Raw) (datatype : String) :
    Except String (Raw × List Warn) :=
  let params := get_entities_from_fname electrodes_fpath
  let space := pyLower (params.space.getD "")
  match _handle_coordsystem_reading cjson datatype with
  | .error e => .error e
  | .ok (coord_frame0, coord_unit) =>
    let step1 := frame_resolution datatype coord_frame0 space
    let step2 : Option String × List Warn :=
      if coord_unit ∉ BIDS_COORDINATE_UNITS then
        (none, step1.2 ++ [Warn.unitNotAccepted coord_unit])
      else step1
    match step2.1 with
    | some cf =>
        match _handle_electrodes_reading tsv cf coord_unit raw with
        | .error e => .error e
        | .ok (raw2, ws3) => .ok (raw2, step2.2 ++ ws3)
    | none => .ok (raw, step2.2)

/-- The content of one sidecar file emitted by the write path. -/
inductive FileContent where
  | tsv (t : ElectrodesTSV)
  | json (j : List (String × JVal))
deriving DecidableEq, Repr

/-- The observable outcome of `_write_dig_bids`: the sidecar files it
hands to the tabular/JSON writer collaborators (in emission order) and
the warnings it emits. -/
structure WriteOut where
  files : List (BIDSPath × FileContent)
  warns : List Warn
deriving DecidableEq, Repr

/-- Python `_write_dig_bids(electrodes_path, coordsystem_path, root,
raw, datatype, overwrite, verbose)`: extracts the path entities, reads
`raw.info['dig'][0]` (raising on `None` or an empty list), aborts with
a warning on inconsistent frames, then for iEEG reroutes nonstandard
frames to `space-<frame>` paths with descriptor frame `Other`, and for
EEG writes only with full landmarks in the head frame; MEG has no
branch. -/
def _write_dig_bids (electrodes_path coordsystem_path : BIDSPath)
    (root : String) (raw : Raw) (datatype : String) :
    Except String WriteOut :=
  let unit := "m"
  let params := get_entities_from_fname electrodes_path
  let subject_id := params.subject
  let session_id := params.session
  let acquisition := params.acquisition
  match raw.dig with
  | none => .error "TypeError"
  | some [] => .error "IndexError"
  | some (digpoint :: rest) =>
    if (digpoint :: rest).any
        (fun d => digpoint.coord_frame ≠ d.coord_frame) then
      .ok ⟨[], [Warn.inconsistentFrames]⟩
    else
      let coord_frame_int := digpoint.coord_frame
      let mne_coord_frame := ndget MNE_FRAME_TO_STR coord_frame_int
      let coord_frame :=
        mne_coord_frame.bind (fun s => dget MNE_TO_BIDS_FRAMES s)
      if datatype = "ieeg" then
        match coord_frame with
        | some cf =>
          let triple : BIDSPath × BIDSPath × String :=
            if cf ∉ BIDS_IEEG_COORDINATE_FRAMES then
              ({ subject := subject_id, session := session_id,
                 acquisition := acquisition, space := some cf,
                 suffix := some "electrodes", extension := some ".tsv",
                 root := root },
               { subject := subject_id, session := session_id,
                 acquisition := acquisition, space := some cf,
                 suffix := some "coordsystem", extension := some ".json",
                 root := root },
               "Other")
            else (electrodes_path, coordsystem_path, cf)
          match _electrodes_tsv raw datatype with
          | .error e => .error e
          | .ok t =>
            match _coordsystem_json raw unit "n/a" triple.2.2 datatype with
            | .error e => .error e
            | .ok j =>
                .ok ⟨[(triple.1, .tsv t), (triple.2.1, .json j)], []⟩
        | none => .ok ⟨[], [Warn.ieegFrameMissing]⟩
      else if datatype = "eeg" then
        let coords := _extract_landmarks (digpoint :: rest)
        if coord_frame_int = FIFFV_COORD_HEAD ∧
            (coords.map (·.1)).toFinset =
              ({"RPA", "NAS", "LPA"} : Finset String) then
          match _electrodes_tsv raw datatype with
          | .error e => .error e
          | .ok t =>
            match _coordsystem_json raw "m" "RAS" "CapTrak" datatype with
            | .error e => .error e
            | .ok j =>
                .ok ⟨[(electrodes_path, .tsv t),
                      (coordsystem_path, .json j)], []⟩
        else .ok ⟨[], [Warn.eegSkip]⟩
      else .ok ⟨[], []⟩

/-- The files emitted by a write outcome (none when it raised). -/
def wfiles (e : Except String WriteOut) : List (BIDSPath × FileContent) :=
  match e with
  | .ok o => o.files
  | .error _ => []

/-- The warnings emitted by a write outcome (none when it raised). -/
def wwarns (e : Except String WriteOut) : List Warn :=
  match e with
  | .ok o => o.warns
  | .error _ => []

/-- Whether a fallible computation completed without raising. -/
def isOkE {α : Type} (e : Except String α) : Bool :=
  match e with
  | .ok _ => true
  | .error _ => false

/-- The montage attached on the recording returned by a read outcome
(`none` when it raised). -/
def montageOf (e : Except String (Raw × List Warn)) : Option Montage :=
  match e with
  | .ok (r, _) => r.montage
  | .error _ => none

/-- The warnings emitted by a read outcome (none when it raised). -/
def rwarns (e : Except String (Raw × List Warn)) : List Warn :=
  match e with
  | .ok (_, w) => w
  | .error _ => []

/-- The json document of a file content (empty for a TSV file). -/
def jsonOfFile (f : FileContent) : List (String × JVal) :=
  match f with
  | .json j => j
  | .tsv _ => []

/-- Whether a file content is a json document. -/
def isJson (f : FileContent) : Bool :=
  match f with
  | .json _ => true
  | .tsv _ => false

section Helpers

lemma dget_eq_none_of_not_mem {α : Type} (l : List (String × α))
    (k : String) (h : k ∉ l.map Prod.fst) : dget l k = none := by
  induction l with
  | nil => rfl
  | cons a l ih =>
      simp only [List.map_cons, List.mem_cons, not_or] at h
      simp only [dget, List.find?]
      have : (a.1 = k) = False := by
        simp [Ne.symm h.1]
      simp only [this, decide_False]
      exact ih h.2

lemma float_or_nan_ne_na (c : Cell) :
    _float_or_nan c ≠ PyVal.pstr "n/a" := by
  cases c <;> simp [_float_or_nan]

lemma mem_map_float_or_nan_ne {l : List Cell} {v : PyVal}
    (h : v ∈ l.map _float_or_nan) : v ≠ PyVal.pstr "n/a" := by
  rcases List.mem_map.mp h with ⟨c, _, rfl⟩
  exact float_or_nan_ne_na c

lemma pyFilter_ok_names (xs : List PyVal)
    (hxs : ∀ v ∈ xs, v ≠ PyVal.pstr "n/a") :
    ∀ (names : List String) (i : ℕ) (r : List String),
      pyFilter xs names i = .ok r → r = names := by
  intro names
  induction names with
  | nil => intro i r h; simpa [pyFilter] using h.symm
  | cons n ns ih =>
      intro i r h
      simp only [pyFilter] at h
      cases hget : xs.get? i with
      | none => rw [hget] at h; exact absurd h (by simp)
      | some v =>
          rw [hget] at h
          cases hrec : pyFilter xs ns (i + 1) with
          | error e => rw [hrec] at h; exact absurd h (by simp)
          | ok rest =>
              rw [hrec] at h
              have hv : v ≠ PyVal.pstr "n/a" :=
                hxs v (List.get?_mem hget)
              simp only [hv, if_pos, ne_eq, not_false_eq_true, if_true,
                Except.ok.injEq] at h
              rw [← h, ih (i + 1) rest hrec]

lemma pyFilter_ok_of_le (xs : List PyVal)
    (hxs : ∀ v ∈ xs, v ≠ PyVal.pstr "n/a") :
    ∀ (names : List String) (i : ℕ), i + names.length ≤ xs.length →
      pyFilter xs names i = .ok names := by
  intro names
  induction names with
  | nil => intro i _; rfl
  | cons n ns ih =>
      intro i hlen
      have hi : i < xs.length := by
        simp only [List.length_cons] at hlen; omega
      have hget : xs.get? i = some (xs.get ⟨i, hi⟩) := List.get?_eq_get hi
      have hrec : pyFilter xs ns (i + 1) = .ok ns := by
        apply ih
        simp only [List.length_cons] at hlen; omega
      simp only [pyFilter, hget, hrec]
      have hv : ¬ (xs[i] = PyVal.pstr "n/a") := by
        intro hc
        exact hxs _ (List.getElem_mem hi) hc
      simp [hv]

lemma pyFilter_ok_le (xs : List PyVal) :
    ∀ (names : List String) (i : ℕ) (r : List String),
      pyFilter xs names i = .ok r →
        i + names.length ≤ xs.length ∨ names = [] := by
  intro names
  induction names with
  | nil =>
      intro i r _
      exact Or.inr rfl
  | cons n ns ih =>
      intro i r h
      left
      simp only [pyFilter] at h
      cases hget : xs.get? i with
      | none => rw [hget] at h; exact absurd h (by simp)
      | some v =>
          rw [hget] at h
          cases hrec : pyFilter xs ns (i + 1) with
          | error e => rw [hrec] at h; exact absurd h (by simp)
          | ok rest =>
              have hlt : i < xs.length := List.get?_eq_some.mp hget |>.1
              rcases ih (i + 1) rest hrec with hle | hnil
              · simp only [List.length_cons]; omega
              · subst hnil
                simp only [List.length_cons, List.length_nil]
                omega

lemma dictInsert_append {α : Type} (d : List (String × α)) (k : String)
    (v : α) (h : ∀ kv ∈ d, kv.1 ≠ k) :
    dictInsert d k v = d ++ [(k, v)] := by
  have : d.any (fun kv => kv.1 = k) = false := by
    simp only [List.any_eq_false, decide_eq_true_eq]
    intro kv hkv
    exact h kv hkv
  simp [dictInsert, this]

lemma dictOf_foldl {α : Type} :
    ∀ (l d : List (String × α)),
      (∀ kv ∈ l, ∀ kv2 ∈ d, kv2.1 ≠ kv.1) →
      (l.map Prod.fst).Nodup →
      l.foldl (fun d kv => dictInsert d kv.1 kv.2) d = d ++ l := by
  intro l
  induction l with
  | nil => intro d _ _; simp
  | cons a l ih =>
      intro d hdisj hnd
      simp only [List.foldl_cons]
      rw [dictInsert_append d a.1 a.2
        (fun kv hkv => hdisj a (List.mem_cons_self a l) kv hkv)]
      rw [ih (d ++ [(a.1, a.2)]) ?_ ?_]
      · simp
      · intro kv hkv kv2 hkv2
        rcases List.mem_append.mp hkv2 with h2 | h2
        · exact hdisj kv (List.mem_cons_of_mem a hkv) kv2 h2
        · simp only [List.mem_singleton] at h2
          subst h2
          simp only [List.map_cons, List.nodup_cons] at hnd
          intro hcontra
          exact hnd.1 (hcontra ▸ List.mem_map_of_mem Prod.fst hkv)
      · simp only [List.map_cons, List.nodup_cons] at hnd
        exact hnd.2

lemma dictOf_eq_self {α : Type} (l : List (String × α))
    (hnd : (l.map Prod.fst).Nodup) : dictOf l = l := by
  have := dictOf_foldl l [] (by intro kv _ kv2 h; simp at h) hnd
  simpa [dictOf] using this

lemma toFinset_card_le_one_of_all_eq (l : List ℕ) (a : ℕ)
    (h : ∀ x ∈ l, x = a) : ¬ 1 < l.toFinset.card := by
  have : l.toFinset ⊆ {a} := by
    intro x hx
    simp only [List.mem_toFinset] at hx
    simp [h x hx]
  have hcard := Finset.card_le_card this
  simp only [Finset.card_singleton] at hcard
  omega

lemma scale_m (p : Option ℚ × Option ℚ × Option ℚ) :
    _scale_coord_to_meters p "m" = p := rfl

end Helpers

/-- The converted coordinate column: cells through `_float_or_nan`,
viewed as floats. -/
def convCol (l : List Cell) : List (Option ℚ) :=
  (l.map _float_or_nan).map pyFloat

/-- The coordinate rows of a table as the reader assembles them
(`np.c_` of the three converted columns). -/
def rowsOf (t : ElectrodesTSV) : List (Option ℚ × Option ℚ × Option ℚ) :=
  (convCol t.x).zipWith (fun x yz => (x, yz)) ((convCol t.y).zip (convCol t.z))

/-- The channels the reader reports as having NaN coordinates while not
being marked bad. -/
def nanNames (t : ElectrodesTSV) (raw : Raw) : List String :=
  ((raw.ch_names.zip (rowsOf t)).filter
    (fun p => hasNan p.2 && !(decide (p.1 ∈ raw.bads)))).map (·.1)

/-- The coordinate rows rescaled to meters for the declared unit. -/
def scaledRows (t : ElectrodesTSV) (unit : String) :
    List (Option ℚ × Option ℚ × Option ℚ) :=
  (rowsOf t).map (fun p => _scale_coord_to_meters p unit)

section ReaderLemmas

lemma handleElectrodes_eq (t : ElectrodesTSV) (cf cu : String) (raw : Raw)
    (hwf : t.WF) (heq : raw.ch_names = t.name) :
    _handle_electrodes_reading t cf cu raw =
      .ok ({ raw with montage := some (Montage.mk (dictOf (raw.ch_names.zip (scaledRows t cu))) cf) },
           if (nanNames t raw).isEmpty then []
           else [Warn.nanChannels (nanNames t raw)]) := by
  have hfil : pyFilter (t.x.map _float_or_nan) raw.ch_names 0 =
      .ok raw.ch_names := by
    apply pyFilter_ok_of_le
    · exact fun v hv => mem_map_float_or_nan_ne hv
    · simp [heq, hwf.1]
  have hnp : np_c ((t.x.map _float_or_nan).map pyFloat)
      ((t.y.map _float_or_nan).map pyFloat)
      ((t.z.map _float_or_nan).map pyFloat) = .ok (rowsOf t) := by
    have hcond : ((t.x.map _float_or_nan).map pyFloat).length =
        ((t.y.map _float_or_nan).map pyFloat).length ∧
        ((t.y.map _float_or_nan).map pyFloat).length =
        ((t.z.map _float_or_nan).map pyFloat).length := by
      simp [hwf.1, hwf.2.1, hwf.2.2]
    simp only [np_c, if_pos hcond]
    rfl
  have hchk : checkChNames raw.ch_names t.name = .ok () := by
    simp [checkChNames, heq]
  simp only [_handle_electrodes_reading, hchk, hfil, hnp]
  rfl

lemma checkChNames_ok_iff (r t : List String) :
    checkChNames r t = .ok () ↔ (r = t ∨ r = t ++ ["STI 014"]) := by
  constructor
  · intro h
    by_cases heq : r = t
    · exact Or.inl heq
    · right
      rw [checkChNames, if_neg heq] at h
      cases hlast : r.getLast? with
      | none =>
          rw [hlast] at h
          exact absurd h (by simp)
      | some last =>
          rw [hlast] at h
          simp only at h
          by_cases hc : last = "STI 014" ∧ r.dropLast = t
          · have hr : r ≠ [] := by
              intro hr0
              rw [hr0] at hlast
              exact absurd hlast (by simp)
            have hg : r.getLast hr = last := by
              rw [List.getLast?_eq_getLast r hr] at hlast
              exact Option.some.inj hlast
            calc r = r.dropLast ++ [r.getLast hr] :=
                  (List.dropLast_append_getLast hr).symm
              _ = t ++ ["STI 014"] := by rw [hg, hc.1, hc.2]
          · rw [if_neg hc] at h
            exact absurd h (by simp)
  · intro h
    rcases h with heq | hsti
    · simp [checkChNames, heq]
    · have hne : r ≠ t := by
        rw [hsti]
        intro hcontra
        have := congrArg List.length hcontra
        simp at this
      rw [checkChNames, if_neg hne, hsti, List.getLast?_concat]
      simp only
      rw [if_pos ⟨trivial, List.dropLast_concat⟩]

end ReaderLemmas

/-- C2: for every position table and recording, the reader
`_handle_electrodes_reading` succeeds (does not raise on the name
check, nor later) when the table's ordered channel-name sequence equals
the recording's, and raises whenever the sequences differ in any way
other than the recording carrying a single trailing synthetic `STI 014`
channel as the only mismatch at the tail. -/
theorem C2_name_order_invariant (t : ElectrodesTSV) (cf cu : String)
    (raw : Raw) (hwf : t.WF) :
    (raw.ch_names = t.name →
      isOkE (_handle_electrodes_reading t cf cu raw) = true) ∧
    (raw.ch_names ≠ t.name → raw.ch_names ≠ t.name ++ ["STI 014"] →
      isOkE (_handle_electrodes_reading t cf cu raw) = false) := by
  constructor
  · intro heq
    rw [handleElectrodes_eq t cf cu raw hwf heq]
    rfl
  · intro hne hnsti
    cases hc : checkChNames raw.ch_names t.name with
    | ok u =>
        cases u
        rcases (checkChNames_ok_iff _ _).mp hc with h | h
        · exact absurd h hne
        · exact absurd h hnsti
    | error e =>
        simp [_handle_electrodes_reading, hc, isOkE]

/-- C2 witness: a concrete matching table succeeds and a concrete
mismatching table raises. -/
theorem C2_name_order_invariant_witness :
    isOkE (_handle_electrodes_reading
      ⟨["A"], [.num 1], [.num 2], [.num 3], none, none⟩ "head" "m"
      ⟨[⟨"A", none⟩], none, [], none, none⟩) = true ∧
    isOkE (_handle_electrodes_reading
      ⟨["A"], [.num 1], [.num 2], [.num 3], none, none⟩ "head" "m"
      ⟨[⟨"B", none⟩], none, [], none, none⟩) = false := by
  constructor
  · exact (C2_name_order_invariant
      ⟨["A"], [.num 1], [.num 2], [.num 3], none, none⟩ "head" "m"
      ⟨[⟨"A", none⟩], none, [], none, none⟩ (by decide)).1 (by decide)
  · exact (C2_name_order_invariant
      ⟨["A"], [.num 1], [.num 2], [.num 3], none, none⟩ "head" "m"
      ⟨[⟨"B", none⟩], none, [], none, none⟩ (by decide)).2
      (by decide) (by decide)

lemma scaledRows_length (t : ElectrodesTSV) (cu : String) (hwf : t.WF) :
    (scaledRows t cu).length = t.name.length := by
  simp [scaledRows, rowsOf, convCol, hwf.1, hwf.2.1, hwf.2.2]

/-- C9: in `_handle_electrodes_reading`, a channel with a NaN
coordinate that is not listed among the recording's bad channels makes
the reader emit exactly one warning, which names that channel; the same
channel listed as bad is named by no warning; processing succeeds in
both cases. -/
theorem C9_missing_position_warning (t : ElectrodesTSV) (cf cu : String)
    (raw : Raw) (c : String) (p : Option ℚ × Option ℚ × Option ℚ) (i : ℕ)
    (hwf : t.WF) (heq : raw.ch_names = t.name)
    (hget : (raw.ch_names.zip (rowsOf t)).get? i = some (c, p))
    (hnan : hasNan p = true) :
    (c ∉ raw.bads →
      rwarns (_handle_electrodes_reading t cf cu raw) =
        [Warn.nanChannels (nanNames t raw)] ∧
      c ∈ nanNames t raw ∧
      isOkE (_handle_electrodes_reading t cf cu raw) = true) ∧
    (c ∈ raw.bads →
      (∀ l, Warn.nanChannels l ∈
          rwarns (_handle_electrodes_reading t cf cu raw) → c ∉ l) ∧
      isOkE (_handle_electrodes_reading t cf cu raw) = true) := by
  have hmem : (c, p) ∈ raw.ch_names.zip (rowsOf t) := List.get?_mem hget
  rw [handleElectrodes_eq t cf cu raw hwf heq]
  constructor
  · intro hb
    have hcmem : c ∈ nanNames t raw := by
      unfold nanNames
      have hin : (c, p) ∈ (raw.ch_names.zip (rowsOf t)).filter
          (fun q => hasNan q.2 && !(decide (q.1 ∈ raw.bads))) := by
        refine List.mem_filter.mpr ⟨hmem, ?_⟩
        simp [hnan, hb]
      exact List.mem_map_of_mem (·.1) hin
    have hne : (nanNames t raw).isEmpty = false := by
      cases hnn : nanNames t raw with
      | nil => rw [hnn] at hcmem; exact absurd hcmem (by simp)
      | cons a l => rfl
    refine ⟨by simp [rwarns, hne], hcmem, by simp [isOkE]⟩
  · intro hb
    refine ⟨?_, by simp [isOkE]⟩
    intro l hl
    by_cases hne : (nanNames t raw).isEmpty
    · rw [if_pos hne] at hl
      exact absurd hl (by simp [rwarns])
    · rw [if_neg hne] at hl
      simp only [rwarns, List.mem_singleton, Warn.nanChannels.injEq] at hl
      subst hl
      intro hcl
      unfold nanNames at hcl
      rcases List.mem_map.mp hcl with ⟨⟨a, q⟩, hfil, ha⟩
      rcases List.mem_filter.mp hfil with ⟨_, hcond⟩
      simp only [Bool.and_eq_true, Bool.not_eq_true', decide_eq_false_iff_not] at hcond
      have ha2 : a = c := ha
      exact hcond.2 (ha2 ▸ hb)

/-- C9 witness: a concrete table whose first channel has an `n/a` x
coordinate: not marked bad it is named by the single warning, marked
bad it is named by none, and reading succeeds both times. -/
theorem C9_missing_position_warning_witness :
    (rwarns (_handle_electrodes_reading
        ⟨["A", "B"], [.na, .num 1], [.num 2, .num 2], [.num 3, .num 3],
         none, none⟩ "head" "m"
        ⟨[⟨"A", none⟩, ⟨"B", none⟩], none, [], none, none⟩) =
      [Warn.nanChannels ["A"]] ∧
     isOkE (_handle_electrodes_reading
        ⟨["A", "B"], [.na, .num 1], [.num 2, .num 2], [.num 3, .num 3],
         none, none⟩ "head" "m"
        ⟨[⟨"A", none⟩, ⟨"B", none⟩], none, [], none, none⟩) = true) ∧
    (∀ l, Warn.nanChannels l ∈
        rwarns (_handle_electrodes_reading
          ⟨["A", "B"], [.na, .num 1], [.num 2, .num 2], [.num 3, .num 3],
           none, none⟩ "head" "m"
          ⟨[⟨"A", none⟩, ⟨"B", none⟩], none, ["A"], none, none⟩) →
      "A" ∉ l) := by
  constructor
  · have h := C9_missing_position_warning
      ⟨["A", "B"], [.na, .num 1], [.num 2, .num 2], [.num 3, .num 3],
       none, none⟩ "head" "m"
      ⟨[⟨"A", none⟩, ⟨"B", none⟩], none, [], none, none⟩ "A"
      (none, some 2, some 3) 0 (by decide) (by decide) (by decide)
      (by decide)
    have h1 := h.1 (by decide)
    refine ⟨?_, h1.2.2⟩
    rw [h1.1]
    have : nanNames
        ⟨["A", "B"], [.na, .num 1], [.num 2, .num 2], [.num 3, .num 3],
         none, none⟩
        ⟨[⟨"A", none⟩, ⟨"B", none⟩], none, [], none, none⟩ = ["A"] := by
      decide
    rw [this]
  · have h := C9_missing_position_warning
      ⟨["A", "B"], [.na, .num 1], [.num 2, .num 2], [.num 3, .num 3],
       none, none⟩ "head" "m"
      ⟨[⟨"A", none⟩, ⟨"B", none⟩], none, ["A"], none, none⟩ "A"
      (none, some 2, some 3) 0 (by decide) (by decide) (by decide)
      (by decide)
    exact (h.2 (by decide)).1

/-- C10 (amended): the `!= "n/a"` filter in `_handle_electrodes_reading`
never removes any channel, because the coordinate columns have already
been converted to floats; and for every well-formed table whose channel
names match the recording's exactly, the attached montage has a
position entry for every channel, including NaN positions for
unlocalized channels. -/
theorem C10_filter_never_drops (t : ElectrodesTSV) (cf cu : String)
    (raw : Raw) (xs : List Cell) (names : List String) (i : ℕ)
    (r : List String) (hwf : t.WF) (heq : raw.ch_names = t.name)
    (hnd : t.name.Nodup)
    (hfil : pyFilter (xs.map _float_or_nan) names i = .ok r) :
    r = names ∧
    montageOf (_handle_electrodes_reading t cf cu raw) =
      some ⟨t.name.zip (scaledRows t cu), cf⟩ := by
  constructor
  · exact pyFilter_ok_names (xs.map _float_or_nan)
      (fun v hv => mem_map_float_or_nan_ne hv) names i r hfil
  · rw [handleElectrodes_eq t cf cu raw hwf heq]
    simp only [montageOf, Option.some.injEq, Montage.mk.injEq]
    refine ⟨?_, trivial⟩
    rw [heq]
    apply dictOf_eq_self
    rw [List.map_fst_zip]
    · exact hnd
    · rw [scaledRows_length t cu hwf]

/-- C10 counterexample: a table tolerated by the name check through the
trailing `STI 014` exception makes the reader raise an index error, so
no montage with an entry per channel is attached for it. -/
theorem C10_counterexample :
    checkChNames
      (Raw.ch_names ⟨[⟨"A", none⟩, ⟨"STI 014", none⟩], none, [], none, none⟩)
      ["A"] = .ok () ∧
    _handle_electrodes_reading ⟨["A"], [.na], [.num 2], [.num 3], none, none⟩
      "head" "m" ⟨[⟨"A", none⟩, ⟨"STI 014", none⟩], none, [], none, none⟩ =
      .error "IndexError" := by
  constructor
  · rfl
  · rfl

section WriterLemmas

lemma any_frames_eq_false {d : DigPoint} {ds : List DigPoint}
    (hcons : ∀ x ∈ (d :: ds), x.coord_frame = d.coord_frame) :
    ((d :: ds).any fun x => decide (d.coord_frame ≠ x.coord_frame)) = false := by
  simp only [List.any_eq_false, decide_eq_true_eq]
  intro x hx
  simp [hcons x hx]

lemma any_frames_eq_true_of_card (d : DigPoint) (ds : List DigPoint)
    (hdiv : 1 < (((d :: ds).map (·.coord_frame)).toFinset.card)) :
    ((d :: ds).any fun x => decide (d.coord_frame ≠ x.coord_frame)) = true := by
  by_contra h
  rw [Bool.not_eq_true, List.any_eq_false] at h
  refine toFinset_card_le_one_of_all_eq _ d.coord_frame ?_ hdiv
  intro y hy
  rcases List.mem_map.mp hy with ⟨x, hx, rfl⟩
  have := h x hx
  simp only [decide_eq_true_eq] at this
  omega

lemma coordsystem_json_ok (raw : Raw) (d : DigPoint) (ds : List DigPoint)
    (unit orient csname dt : String)
    (hdig : raw.dig = some (d :: ds))
    (hcons : ∀ x ∈ (d :: ds), x.coord_frame = d.coord_frame) :
    ∃ j, _coordsystem_json raw unit orient csname dt = .ok j := by
  have hcard : ¬ 1 < (((d :: ds).map (·.coord_frame)).toFinset.card) := by
    refine toFinset_card_le_one_of_all_eq _ d.coord_frame ?_
    intro y hy
    rcases List.mem_map.mp hy with ⟨x, hx, rfl⟩
    exact hcons x hx
  unfold _coordsystem_json
  rw [hdig]
  simp only [Option.getD_some]
  rw [if_neg hcard]
  split_ifs <;> exact ⟨_, rfl⟩

lemma coordsystem_json_ieeg (raw : Raw) (d : DigPoint) (ds : List DigPoint)
    (unit orient csname : String)
    (hdig : raw.dig = some (d :: ds))
    (hcons : ∀ x ∈ (d :: ds), x.coord_frame = d.coord_frame) :
    _coordsystem_json raw unit orient csname "ieeg" =
      .ok [("iEEGCoordinateSystem", JVal.s csname),
           ("iEEGCoordinateSystemDescription",
            JVal.s ((dget COORD_FRAME_DESCRIPTIONS csname).getD "n/a")),
           ("iEEGCoordinateUnits", JVal.s unit)] := by
  have hcard : ¬ 1 < (((d :: ds).map (·.coord_frame)).toFinset.card) := by
    refine toFinset_card_le_one_of_all_eq _ d.coord_frame ?_
    intro y hy
    rcases List.mem_map.mp hy with ⟨x, hx, rfl⟩
    exact hcons x hx
  unfold _coordsystem_json
  rw [hdig]
  simp only [Option.getD_some]
  rw [if_neg hcard, if_neg (by decide), if_neg (by decide)]
  simp

lemma coordsystem_json_eeg (raw : Raw) (d : DigPoint) (ds : List DigPoint)
    (unit orient csname : String)
    (hdig : raw.dig = some (d :: ds))
    (hcons : ∀ x ∈ (d :: ds), x.coord_frame = d.coord_frame) :
    _coordsystem_json raw unit orient csname "eeg" =
      .ok [("EEGCoordinateSystem", JVal.s csname),
           ("EEGCoordinateUnits", JVal.s unit),
           ("EEGCoordinateSystemDescription",
            JVal.s ((dget COORD_FRAME_DESCRIPTIONS csname).getD "n/a")),
           ("AnatomicalLandmarkCoordinates",
            JVal.coords (_extract_landmarks (d :: ds) ++ coilCoords (d :: ds))),
           ("AnatomicalLandmarkCoordinateSystem", JVal.s csname),
           ("AnatomicalLandmarkCoordinateUnits", JVal.s unit)] := by
  have hcard : ¬ 1 < (((d :: ds).map (·.coord_frame)).toFinset.card) := by
    refine toFinset_card_le_one_of_all_eq _ d.coord_frame ?_
    intro y hy
    rcases List.mem_map.mp hy with ⟨x, hx, rfl⟩
    exact hcons x hx
  unfold _coordsystem_json
  rw [hdig]
  simp only [Option.getD_some]
  rw [if_neg hcard, if_neg (by decide)]
  simp

lemma electrodes_tsv_ieeg (raw : Raw) :
    _electrodes_tsv raw "ieeg" =
      .ok { name := raw.chs.map (·.ch_name),
            x := raw.chs.map (fun ch => match ch.loc with
              | some p => Cell.num p.1
              | none => Cell.na),
            y := raw.chs.map (fun ch => match ch.loc with
              | some p => Cell.num p.2.1
              | none => Cell.na),
            z := raw.chs.map (fun ch => match ch.loc with
              | some p => Cell.num p.2.2
              | none => Cell.na),
            size := some ((raw.chs.map (·.ch_name)).map (fun _ => Cell.na)),
            impedance := raw.impedances.map
              (fun _ => _get_impedances raw (raw.chs.map (·.ch_name))) } := by
  unfold _electrodes_tsv
  rw [if_pos rfl]

lemma electrodes_tsv_eeg (raw : Raw) :
    _electrodes_tsv raw "eeg" =
      .ok { name := raw.chs.map (·.ch_name),
            x := raw.chs.map (fun ch => match ch.loc with
              | some p => Cell.num p.1
              | none => Cell.na),
            y := raw.chs.map (fun ch => match ch.loc with
              | some p => Cell.num p.2.1
              | none => Cell.na),
            z := raw.chs.map (fun ch => match ch.loc with
              | some p => Cell.num p.2.2
              | none => Cell.na),
            size := none,
            impedance := raw.impedances.map
              (fun _ => _get_impedances raw (raw.chs.map (·.ch_name))) } := by
  unfold _electrodes_tsv
  rw [if_neg (by decide), if_pos rfl]

end WriterLemmas

/-- C3: for every recording whose digitized points carry two or more
distinct coordinate-frame tags, descriptor emission `_coordsystem_json`
raises, and the write orchestration `_write_dig_bids` detects the
divergence and returns (with a warning) before any file is created. -/
theorem C3_frame_consistency (raw : Raw) (unit orient csname dt : String)
    (ep cp : BIDSPath) (root : String) (d : DigPoint)
    (ds : List DigPoint) (hdig : raw.dig = some (d :: ds))
    (hdiv : 1 < (((d :: ds).map (·.coord_frame)).toFinset.card)) :
    isOkE (_coordsystem_json raw unit orient csname dt) = false ∧
    _write_dig_bids ep cp root raw dt =
      .ok ⟨[], [Warn.inconsistentFrames]⟩ := by
  constructor
  · unfold _coordsystem_json
    rw [hdig]
    simp only [Option.getD_some]
    rw [if_pos hdiv]
    rfl
  · have hany := any_frames_eq_true_of_card d ds hdiv
    unfold _write_dig_bids
    rw [hdig]
    dsimp only
    rw [if_pos hany]

/-- C3 witness: a concrete recording holding two digitized points in
different frames. -/
theorem C3_frame_consistency_witness :
    isOkE (_coordsystem_json
      ⟨[⟨"A", none⟩], some [⟨3, 1, 4, (0, 0, 0)⟩, ⟨3, 2, 5, (0, 0, 0)⟩],
       [], none, none⟩ "m" "n/a" "ACPC" "ieeg") = false ∧
    _write_dig_bids ⟨none, none, none, none, some "electrodes",
        some ".tsv", ""⟩
      ⟨none, none, none, none, some "coordsystem", some ".json", ""⟩ ""
      ⟨[⟨"A", none⟩], some [⟨3, 1, 4, (0, 0, 0)⟩, ⟨3, 2, 5, (0, 0, 0)⟩],
       [], none, none⟩ "ieeg" =
      .ok ⟨[], [Warn.inconsistentFrames]⟩ :=
  C3_frame_consistency
    ⟨[⟨"A", none⟩], some [⟨3, 1, 4, (0, 0, 0)⟩, ⟨3, 2, 5, (0, 0, 0)⟩],
     [], none, none⟩ "m" "n/a" "ACPC" "ieeg"
    ⟨none, none, none, none, some "electrodes", some ".tsv", ""⟩
    ⟨none, none, none, none, some "coordsystem", some ".json", ""⟩ ""
    ⟨3, 1, 4, (0, 0, 0)⟩ [⟨3, 2, 5, (0, 0, 0)⟩] rfl (by decide)

/-- C8 counterexample: a recording with an empty digitized-point list
makes `_write_dig_bids` raise (the unguarded `raw.info['dig'][0]`
access), contradicting the claim that it never raises there. -/
theorem C8_counterexample :
    _write_dig_bids
      ⟨none, none, none, none, some "electrodes", some ".tsv", ""⟩
      ⟨none, none, none, none, some "coordsystem", some ".json", ""⟩ ""
      ⟨[⟨"A", some (1, 2, 3)⟩], some [], [], none, none⟩ "ieeg" =
      .error "IndexError" := rfl

/-- C8 (amended): for every recording whose digitized-point list is
nonempty, `_write_dig_bids` does not raise; inconsistent frames lead at
most to a warning and a return without creating any files.  (With an
empty or absent digitized-point list the indexing of the first point
raises.) -/
theorem C8_write_no_raise (ep cp : BIDSPath) (root : String) (raw : Raw)
    (dt : String) (d : DigPoint) (ds : List DigPoint)
    (hdig : raw.dig = some (d :: ds)) :
    isOkE (_write_dig_bids ep cp root raw dt) = true ∧
    (((d :: ds).any fun x => decide (d.coord_frame ≠ x.coord_frame)) = true →
      _write_dig_bids ep cp root raw dt =
        .ok ⟨[], [Warn.inconsistentFrames]⟩) := by
  constructor
  · unfold _write_dig_bids
    rw [hdig]
    dsimp only
    by_cases hany :
        ((d :: ds).any fun x => decide (d.coord_frame ≠ x.coord_frame)) = true
    · rw [if_pos hany]
      rfl
    · rw [if_neg hany]
      have hcons : ∀ x ∈ (d :: ds), x.coord_frame = d.coord_frame := by
        have hf : ((d :: ds).any
            fun x => decide (d.coord_frame ≠ x.coord_frame)) = false :=
          Bool.eq_false_iff.mpr hany
        rw [List.any_eq_false] at hf
        intro x hx
        have := hf x hx
        simp only [decide_eq_true_eq] at this
        omega
      by_cases hdt1 : dt = "ieeg"
      · subst hdt1
        rw [if_pos rfl]
        cases hcf : (ndget MNE_FRAME_TO_STR d.coord_frame).bind
            (fun s => dget MNE_TO_BIDS_FRAMES s) with
        | none => rfl
        | some cf =>
            dsimp only
            rw [electrodes_tsv_ieeg raw]
            obtain ⟨j, hj⟩ :=
              coordsystem_json_ok raw d ds "m" "n/a" _ "ieeg" hdig hcons
            rw [hj]
            rfl
      · rw [if_neg hdt1]
        by_cases hdt2 : dt = "eeg"
        · subst hdt2
          rw [if_pos rfl]
          by_cases hcond : d.coord_frame = FIFFV_COORD_HEAD ∧
              ((_extract_landmarks (d :: ds)).map (fun x => x.1)).toFinset =
                ({"RPA", "NAS", "LPA"} : Finset String)
          · rw [if_pos hcond, electrodes_tsv_eeg raw,
              coordsystem_json_eeg raw d ds "m" "RAS" "CapTrak" hdig hcons]
            rfl
          · rw [if_neg hcond]
            rfl
        · rw [if_neg hdt2]
          rfl
  · intro hany
    unfold _write_dig_bids
    rw [hdig]
    dsimp only
    rw [if_pos hany]

/-- C8 witness: a concrete nonempty but frame-inconsistent recording
leads to a warning and no files, without raising. -/
theorem C8_write_no_raise_witness :
    isOkE (_write_dig_bids
      ⟨some "01", none, none, none, some "electrodes", some ".tsv", ""⟩
      ⟨some "01", none, none, none, some "coordsystem", some ".json", ""⟩ ""
      ⟨[⟨"B", none⟩], some [⟨3, 1, 0, (0, 0, 0)⟩, ⟨3, 2, 4, (1, 1, 1)⟩],
       [], none, none⟩ "eeg") = true ∧
    _write_dig_bids
      ⟨some "01", none, none, none, some "electrodes", some ".tsv", ""⟩
      ⟨some "01", none, none, none, some "coordsystem", some ".json", ""⟩ ""
      ⟨[⟨"B", none⟩], some [⟨3, 1, 0, (0, 0, 0)⟩, ⟨3, 2, 4, (1, 1, 1)⟩],
       [], none, none⟩ "eeg" = .ok ⟨[], [Warn.inconsistentFrames]⟩ := by
  have h := C8_write_no_raise
    ⟨some "01", none, none, none, some "electrodes", some ".tsv", ""⟩
    ⟨some "01", none, none, none, some "coordsystem", some ".json", ""⟩ ""
    ⟨[⟨"B", none⟩], some [⟨3, 1, 0, (0, 0, 0)⟩, ⟨3, 2, 4, (1, 1, 1)⟩],
     [], none, none⟩ "eeg" ⟨3, 1, 0, (0, 0, 0)⟩ [⟨3, 2, 4, (1, 1, 1)⟩] rfl
  exact ⟨h.1, h.2 (by decide)⟩

/-- C10 witness: a concrete one-channel table with an `n/a` coordinate
passes the filter unchanged and yields a montage with a NaN-position
entry for that channel. -/
theorem C10_filter_never_drops_witness :
    (["A"] : List String) = ["A"] ∧
    montageOf (_handle_electrodes_reading
      ⟨["A"], [.na], [.num 2], [.num 3], none, none⟩ "head" "m"
      ⟨[⟨"A", none⟩], none, [], none, none⟩) =
      some ⟨["A"].zip (scaledRows
        ⟨["A"], [.na], [.num 2], [.num 3], none, none⟩ "m"), "head"⟩ :=
  C10_filter_never_drops
    ⟨["A"], [.na], [.num 2], [.num 3], none, none⟩ "head" "m"
    ⟨[⟨"A", none⟩], none, [], none, none⟩ [Cell.na] ["A"] 0 ["A"]
    (by decide) (by decide) (by decide) rfl

/-- C4: for every modality and every descriptor whose unit string is
outside the accepted unit set, `_read_dig_bids` warns, forces the frame
to unresolved regardless of frame resolution, and performs no position
attachment: the recording's montage is returned unchanged. -/
theorem C4_unit_gating (pe : BIDSPath) (tsv : ElectrodesTSV)
    (cjson : List (String × JVal)) (raw : Raw) (dt f cu : String)
    (hcs : _handle_coordsystem_reading cjson dt = .ok (f, cu))
    (hcu : cu ∉ BIDS_COORDINATE_UNITS) :
    isOkE (_read_dig_bids pe tsv cjson raw dt) = true ∧
    montageOf (_read_dig_bids pe tsv cjson raw dt) = raw.montage ∧
    Warn.unitNotAccepted cu ∈ rwarns (_read_dig_bids pe tsv cjson raw dt) := by
  unfold _read_dig_bids
  rw [hcs]
  dsimp only
  rw [if_pos hcu]
  exact ⟨rfl, rfl, List.mem_append_right _ (List.mem_singleton.mpr rfl)⟩

/-- C4 witness: a concrete iEEG descriptor in kilometers is rejected
and the recording comes back unchanged. -/
theorem C4_unit_gating_witness :
    isOkE (_read_dig_bids
      ⟨none, none, none, none, some "electrodes", some ".tsv", ""⟩
      ⟨["C1"], [.num 1], [.num 2], [.num 3], none, none⟩
      [("iEEGCoordinateSystem", JVal.s "ACPC"),
       ("iEEGCoordinateUnits", JVal.s "km")]
      ⟨[⟨"C1", none⟩], none, [], none, none⟩ "ieeg") = true ∧
    montageOf (_read_dig_bids
      ⟨none, none, none, none, some "electrodes", some ".tsv", ""⟩
      ⟨["C1"], [.num 1], [.num 2], [.num 3], none, none⟩
      [("iEEGCoordinateSystem", JVal.s "ACPC"),
       ("iEEGCoordinateUnits", JVal.s "km")]
      ⟨[⟨"C1", none⟩], none, [], none, none⟩ "ieeg") =
      Raw.montage ⟨[⟨"C1", none⟩], none, [], none, none⟩ ∧
    Warn.unitNotAccepted "km" ∈ rwarns (_read_dig_bids
      ⟨none, none, none, none, some "electrodes", some ".tsv", ""⟩
      ⟨["C1"], [.num 1], [.num 2], [.num 3], none, none⟩
      [("iEEGCoordinateSystem", JVal.s "ACPC"),
       ("iEEGCoordinateUnits", JVal.s "km")]
      ⟨[⟨"C1", none⟩], none, [], none, none⟩ "ieeg") :=
  C4_unit_gating
    ⟨none, none, none, none, some "electrodes", some ".tsv", ""⟩
    ⟨["C1"], [.num 1], [.num 2], [.num 3], none, none⟩
    [("iEEGCoordinateSystem", JVal.s "ACPC"),
     ("iEEGCoordinateUnits", JVal.s "km")]
    ⟨[⟨"C1", none⟩], none, [], none, none⟩ "ieeg" "acpc" "km"
    rfl (by decide)

lemma frame_resolution_ieeg_other (sp : String)
    (hsp : sp ∉ BIDS_TO_MNE_FRAMES.map (·.1)) :
    frame_resolution "ieeg" "other" sp =
      (dget BIDS_TO_MNE_FRAMES sp, [Warn.ieegDefaultUnknown "other"]) := by
  unfold frame_resolution
  rw [if_neg (by decide), if_pos rfl, if_neg (by decide),
    if_neg (by decide), if_neg (by decide), if_pos rfl, if_pos hsp]

/-- C5 counterexample: an iEEG descriptor with frame `Other`, no space
entity in the path and an accepted unit: the reader emits the
"defaulting to unknown" warning but returns the recording unchanged,
with no montage attached — position attachment does not proceed. -/
theorem C5_counterexample :
    _read_dig_bids
      ⟨none, none, none, none, some "electrodes", some ".tsv", ""⟩
      ⟨["C1"], [.num 1], [.num 2], [.num 3], none, none⟩
      [("iEEGCoordinateSystem", JVal.s "Other"),
       ("iEEGCoordinateUnits", JVal.s "m")]
      ⟨[⟨"C1", none⟩], none, [], none, none⟩ "ieeg" =
      .ok (⟨[⟨"C1", none⟩], none, [], none, none⟩,
           [Warn.ieegDefaultUnknown "other"]) ∧
    Raw.montage ⟨[⟨"C1", none⟩], none, [], none, none⟩ = none := by
  constructor
  · rfl
  · rfl

/-- C5 (amended): in `_read_dig_bids` with datatype ieeg and descriptor
frame `other`, resolution is attempted through the path-encoded space
entity instead of the descriptor's frame name; when the space tag is
also unresolvable a warning is emitted and the frame is left unresolved
(`None`), so position attachment is skipped and the recording is
returned unchanged. -/
theorem C5_ieeg_other_space_fallback (pe : BIDSPath) (tsv : ElectrodesTSV)
    (cjson : List (String × JVal)) (raw : Raw) (cu : String)
    (hcs : _handle_coordsystem_reading cjson "ieeg" = .ok ("other", cu))
    (hsp : pyLower (pe.space.getD "") ∉ BIDS_TO_MNE_FRAMES.map (·.1)) :
    isOkE (_read_dig_bids pe tsv cjson raw "ieeg") = true ∧
    montageOf (_read_dig_bids pe tsv cjson raw "ieeg") = raw.montage ∧
    Warn.ieegDefaultUnknown "other" ∈
      rwarns (_read_dig_bids pe tsv cjson raw "ieeg") := by
  have hdg : dget BIDS_TO_MNE_FRAMES (pyLower (pe.space.getD "")) = none :=
    dget_eq_none_of_not_mem _ _ hsp
  have h1 := frame_resolution_ieeg_other _ hsp
  unfold _read_dig_bids
  rw [hcs]
  dsimp only [get_entities_from_fname]
  rw [h1, hdg]
  by_cases hcu : cu ∉ BIDS_COORDINATE_UNITS
  · rw [if_pos hcu]
    exact ⟨rfl, rfl, List.mem_append_left _ (List.mem_singleton.mpr rfl)⟩
  · rw [if_neg hcu]
    exact ⟨rfl, rfl, List.mem_singleton.mpr rfl⟩

/-- C5 witness: a concrete path carrying `space-xyzzy`, which no frame
map resolves. -/
theorem C5_ieeg_other_space_fallback_witness :
    isOkE (_read_dig_bids
      ⟨none, none, none, some "xyzzy", some "electrodes", some ".tsv", ""⟩
      ⟨["C1"], [.num 1], [.num 2], [.num 3], none, none⟩
      [("iEEGCoordinateSystem", JVal.s "Other"),
       ("iEEGCoordinateUnits", JVal.s "m")]
      ⟨[⟨"C1", none⟩], none, [], none, none⟩ "ieeg") = true ∧
    montageOf (_read_dig_bids
      ⟨none, none, none, some "xyzzy", some "electrodes", some ".tsv", ""⟩
      ⟨["C1"], [.num 1], [.num 2], [.num 3], none, none⟩
      [("iEEGCoordinateSystem", JVal.s "Other"),
       ("iEEGCoordinateUnits", JVal.s "m")]
      ⟨[⟨"C1", none⟩], none, [], none, none⟩ "ieeg") =
      Raw.montage ⟨[⟨"C1", none⟩], none, [], none, none⟩ ∧
    Warn.ieegDefaultUnknown "other" ∈ rwarns (_read_dig_bids
      ⟨none, none, none, some "xyzzy", some "electrodes", some ".tsv", ""⟩
      ⟨["C1"], [.num 1], [.num 2], [.num 3], none, none⟩
      [("iEEGCoordinateSystem", JVal.s "Other"),
       ("iEEGCoordinateUnits", JVal.s "m")]
      ⟨[⟨"C1", none⟩], none, [], none, none⟩ "ieeg") :=
  C5_ieeg_other_space_fallback
    ⟨none, none, none, some "xyzzy", some "electrodes", some ".tsv", ""⟩
    ⟨["C1"], [.num 1], [.num 2], [.num 3], none, none⟩
    [("iEEGCoordinateSystem", JVal.s "Other"),
     ("iEEGCoordinateUnits", JVal.s "m")]
    ⟨[⟨"C1", none⟩], none, [], none, none⟩ "m" rfl (by decide)

/-- C6: for every iEEG write whose resolved external frame lies outside
the accepted iEEG frame vocabulary, both target paths are regenerated
from the subject/session/acquisition entities with a `space-<frame>`
tag inserted, and the frame name written into the descriptor's
`iEEGCoordinateSystem` field is the generic `Other`. -/
theorem C6_ieeg_rerouting (ep cp : BIDSPath) (root : String) (raw : Raw)
    (d : DigPoint) (ds : List DigPoint) (cf : String)
    (hdig : raw.dig = some (d :: ds))
    (hcons : ∀ x ∈ (d :: ds), x.coord_frame = d.coord_frame)
    (hres : (ndget MNE_FRAME_TO_STR d.coord_frame).bind
        (fun s => dget MNE_TO_BIDS_FRAMES s) = some cf)
    (hout : cf ∉ BIDS_IEEG_COORDINATE_FRAMES) :
    (wfiles (_write_dig_bids ep cp root raw "ieeg")).map (·.1) =
      [⟨ep.subject, ep.session, ep.acquisition, some cf,
        some "electrodes", some ".tsv", root⟩,
       ⟨ep.subject, ep.session, ep.acquisition, some cf,
        some "coordsystem", some ".json", root⟩] ∧
    ("space-" ++ cf) ∈ BIDSPath.entityTags
      ⟨ep.subject, ep.session, ep.acquisition, some cf,
       some "electrodes", some ".tsv", root⟩ ∧
    ("space-" ++ cf) ∈ BIDSPath.entityTags
      ⟨ep.subject, ep.session, ep.acquisition, some cf,
       some "coordsystem", some ".json", root⟩ ∧
    (wfiles (_write_dig_bids ep cp root raw "ieeg")).map
      (fun pf => dget (jsonOfFile pf.2) "iEEGCoordinateSystem") =
      [none, some (JVal.s "Other")] ∧
    isOkE (_write_dig_bids ep cp root raw "ieeg") = true := by
  have hany : ¬ ((d :: ds).any
      fun x => decide (d.coord_frame ≠ x.coord_frame)) = true := by
    rw [any_frames_eq_false hcons]
    simp
  have hmem1 : ("space-" ++ cf) ∈ BIDSPath.entityTags
      ⟨ep.subject, ep.session, ep.acquisition, some cf,
       some "electrodes", some ".tsv", root⟩ :=
    List.mem_append.mpr (Or.inr (List.mem_singleton.mpr rfl))
  have hmem2 : ("space-" ++ cf) ∈ BIDSPath.entityTags
      ⟨ep.subject, ep.session, ep.acquisition, some cf,
       some "coordsystem", some ".json", root⟩ :=
    List.mem_append.mpr (Or.inr (List.mem_singleton.mpr rfl))
  refine ⟨?_, hmem1, hmem2, ?_, ?_⟩ <;>
    (unfold _write_dig_bids
     rw [hdig]
     dsimp only [get_entities_from_fname]
     rw [if_neg hany, if_pos rfl, hres]
     dsimp only
     rw [if_pos hout]
     dsimp only
     rw [electrodes_tsv_ieeg raw,
       coordsystem_json_ieeg raw d ds "m" "n/a" "Other" hdig hcons]
     rfl)

/-- C6 witness: a one-channel iEEG recording digitized in the internal
`mri` frame is rerouted to `space-mri` paths with descriptor frame
`Other`. -/
theorem C6_ieeg_rerouting_witness :
    (wfiles (_write_dig_bids
      ⟨some "01", some "02", none, none, some "electrodes", some ".tsv", ""⟩
      ⟨some "01", some "02", none, none, some "coordsystem", some ".json", ""⟩
      "" ⟨[⟨"C1", some (5, 6, 7)⟩], some [⟨3, 1, 5, (5, 6, 7)⟩], [],
          none, none⟩ "ieeg")).map (·.1) =
      [⟨some "01", some "02", none, some "mri",
        some "electrodes", some ".tsv", ""⟩,
       ⟨some "01", some "02", none, some "mri",
        some "coordsystem", some ".json", ""⟩] ∧
    ("space-" ++ "mri") ∈ BIDSPath.entityTags
      ⟨some "01", some "02", none, some "mri",
       some "electrodes", some ".tsv", ""⟩ ∧
    ("space-" ++ "mri") ∈ BIDSPath.entityTags
      ⟨some "01", some "02", none, some "mri",
       some "coordsystem", some ".json", ""⟩ ∧
    (wfiles (_write_dig_bids
      ⟨some "01", some "02", none, none, some "electrodes", some ".tsv", ""⟩
      ⟨some "01", some "02", none, none, some "coordsystem", some ".json", ""⟩
      "" ⟨[⟨"C1", some (5, 6, 7)⟩], some [⟨3, 1, 5, (5, 6, 7)⟩], [],
          none, none⟩ "ieeg")).map
      (fun pf => dget (jsonOfFile pf.2) "iEEGCoordinateSystem") =
      [none, some (JVal.s "Other")] ∧
    isOkE (_write_dig_bids
      ⟨some "01", some "02", none, none, some "electrodes", some ".tsv", ""⟩
      ⟨some "01", some "02", none, none, some "coordsystem", some ".json", ""⟩
      "" ⟨[⟨"C1", some (5, 6, 7)⟩], some [⟨3, 1, 5, (5, 6, 7)⟩], [],
          none, none⟩ "ieeg") = true :=
  C6_ieeg_rerouting
    ⟨some "01", some "02", none, none, some "electrodes", some ".tsv", ""⟩
    ⟨some "01", some "02", none, none, some "coordsystem", some ".json", ""⟩
    "" ⟨[⟨"C1", some (5, 6, 7)⟩], some [⟨3, 1, 5, (5, 6, 7)⟩], [],
        none, none⟩ ⟨3, 1, 5, (5, 6, 7)⟩ [] "mri" rfl (by decide) rfl
    (by decide)

/-- C7: an EEG write whose digitized points lack one of the landmarks
LPA/NAS/RPA, or whose frame is not the head frame, skips creation of
both sidecar files and warns; with exactly the three landmarks present
and the head frame it writes electrodes.tsv and a coordsystem.json
whose frame name is `CapTrak` and unit is `m`. -/
theorem C7_eeg_landmark_gating (ep cp : BIDSPath) (root : String)
    (raw : Raw) (d : DigPoint) (ds : List DigPoint)
    (hdig : raw.dig = some (d :: ds))
    (hcons : ∀ x ∈ (d :: ds), x.coord_frame = d.coord_frame) :
    ((d.coord_frame = FIFFV_COORD_HEAD ∧
        ((_extract_landmarks (d :: ds)).map (fun x => x.1)).toFinset =
          ({"RPA", "NAS", "LPA"} : Finset String)) →
      (wfiles (_write_dig_bids ep cp root raw "eeg")).map (·.1) = [ep, cp] ∧
      (wfiles (_write_dig_bids ep cp root raw "eeg")).map
        (fun pf => dget (jsonOfFile pf.2) "EEGCoordinateSystem") =
        [none, some (JVal.s "CapTrak")] ∧
      (wfiles (_write_dig_bids ep cp root raw "eeg")).map
        (fun pf => dget (jsonOfFile pf.2) "EEGCoordinateUnits") =
        [none, some (JVal.s "m")] ∧
      wwarns (_write_dig_bids ep cp root raw "eeg") = []) ∧
    (¬ (d.coord_frame = FIFFV_COORD_HEAD ∧
        ((_extract_landmarks (d :: ds)).map (fun x => x.1)).toFinset =
          ({"RPA", "NAS", "LPA"} : Finset String)) →
      wfiles (_write_dig_bids ep cp root raw "eeg") = [] ∧
      wwarns (_write_dig_bids ep cp root raw "eeg") = [Warn.eegSkip] ∧
      isOkE (_write_dig_bids ep cp root raw "eeg") = true) := by
  have hany : ¬ ((d :: ds).any
      fun x => decide (d.coord_frame ≠ x.coord_frame)) = true := by
    rw [any_frames_eq_false hcons]
    simp
  constructor
  · intro hcond
    refine ⟨?_, ?_, ?_, ?_⟩ <;>
      (unfold _write_dig_bids
       rw [hdig]
       dsimp only [get_entities_from_fname]
       rw [if_neg hany, if_neg (by decide), if_pos rfl, if_pos hcond,
         electrodes_tsv_eeg raw,
         coordsystem_json_eeg raw d ds "m" "RAS" "CapTrak" hdig hcons]
       rfl)
  · intro hcond
    refine ⟨?_, ?_, ?_⟩ <;>
      (unfold _write_dig_bids
       rw [hdig]
       dsimp only [get_entities_from_fname]
       rw [if_neg hany, if_neg (by decide), if_pos rfl, if_neg hcond]
       rfl)

/-- C7 witness: a two-channel EEG recording with all three landmarks in
the head frame writes both files (CapTrak, meters); the same recording
with one landmark missing skips with a warning. -/
theorem C7_eeg_landmark_gating_witness :
    ((wfiles (_write_dig_bids
      ⟨some "01", none, none, none, some "electrodes", some ".tsv", ""⟩
      ⟨some "01", none, none, none, some "coordsystem", some ".json", ""⟩
      "" ⟨[⟨"A", some (1, 2, 3)⟩], some [⟨1, 1, 4, (0, 0, 0)⟩,
           ⟨1, 2, 4, (0, 1, 0)⟩, ⟨1, 3, 4, (1, 0, 0)⟩], [], none, none⟩
      "eeg")).map
      (fun pf => dget (jsonOfFile pf.2) "EEGCoordinateSystem") =
      [none, some (JVal.s "CapTrak")] ∧
     (wfiles (_write_dig_bids
      ⟨some "01", none, none, none, some "electrodes", some ".tsv", ""⟩
      ⟨some "01", none, none, none, some "coordsystem", some ".json", ""⟩
      "" ⟨[⟨"A", some (1, 2, 3)⟩], some [⟨1, 1, 4, (0, 0, 0)⟩,
           ⟨1, 2, 4, (0, 1, 0)⟩, ⟨1, 3, 4, (1, 0, 0)⟩], [], none, none⟩
      "eeg")).map
      (fun pf => dget (jsonOfFile pf.2) "EEGCoordinateUnits") =
      [none, some (JVal.s "m")]) ∧
    (wfiles (_write_dig_bids
      ⟨some "01", none, none, none, some "electrodes", some ".tsv", ""⟩
      ⟨some "01", none, none, none, some "coordsystem", some ".json", ""⟩
      "" ⟨[⟨"A", some (1, 2, 3)⟩], some [⟨1, 1, 4, (0, 0, 0)⟩,
           ⟨1, 2, 4, (0, 1, 0)⟩], [], none, none⟩ "eeg") = [] ∧
     wwarns (_write_dig_bids
      ⟨some "01", none, none, none, some "electrodes", some ".tsv", ""⟩
      ⟨some "01", none, none, none, some "coordsystem", some ".json", ""⟩
      "" ⟨[⟨"A", some (1, 2, 3)⟩], some [⟨1, 1, 4, (0, 0, 0)⟩,
           ⟨1, 2, 4, (0, 1, 0)⟩], [], none, none⟩ "eeg") =
      [Warn.eegSkip]) := by
  constructor
  · have h := (C7_eeg_landmark_gating
      ⟨some "01", none, none, none, some "electrodes", some ".tsv", ""⟩
      ⟨some "01", none, none, none, some "coordsystem", some ".json", ""⟩
      "" ⟨[⟨"A", some (1, 2, 3)⟩], some [⟨1, 1, 4, (0, 0, 0)⟩,
           ⟨1, 2, 4, (0, 1, 0)⟩, ⟨1, 3, 4, (1, 0, 0)⟩], [], none, none⟩
      ⟨1, 1, 4, (0, 0, 0)⟩ [⟨1, 2, 4, (0, 1, 0)⟩, ⟨1, 3, 4, (1, 0, 0)⟩]
      rfl (by decide)).1 (by decide)
    exact ⟨h.2.1, h.2.2.1⟩
  · have h := (C7_eeg_landmark_gating
      ⟨some "01", none, none, none, some "electrodes", some ".tsv", ""⟩
      ⟨some "01", none, none, none, some "coordsystem", some ".json", ""⟩
      "" ⟨[⟨"A", some (1, 2, 3)⟩], some [⟨1, 1, 4, (0, 0, 0)⟩,
           ⟨1, 2, 4, (0, 1, 0)⟩], [], none, none⟩
      ⟨1, 1, 4, (0, 0, 0)⟩ [⟨1, 2, 4, (0, 1, 0)⟩]
      rfl (by decide)).2 (by decide)
    exact ⟨h.1, h.2.1⟩

section RoundTripLemmas

lemma get?_zipWith {α β γ : Type} (f : α → β → γ) :
    ∀ (as : List α) (bs : List β) (i : ℕ) (a : α) (b : β),
      as.get? i = some a → bs.get? i = some b →
      (as.zipWith f bs).get? i = some (f a b) := by
  intro as
  induction as with
  | nil => intro bs i a b ha _; simp at ha
  | cons x xs ih =>
      intro bs i a b ha hb
      cases bs with
      | nil => simp at hb
      | cons y ys =>
          cases i with
          | zero =>
              simp only [List.get?] at ha hb
              cases ha; cases hb
              rfl
          | succ n =>
              simp only [List.get?] at ha hb ⊢
              exact ih ys n a b ha hb

lemma scaledRows_m (t : ElectrodesTSV) : scaledRows t "m" = rowsOf t := by
  unfold scaledRows
  have : (fun p => _scale_coord_to_meters p "m") =
      (fun p : Option ℚ × Option ℚ × Option ℚ => p) := by
    funext p
    exact scale_m p
  rw [this, List.map_id']

lemma electrodes_tsv_ok_shape (raw : Raw) (dt : String) (t : ElectrodesTSV)
    (h : _electrodes_tsv raw dt = .ok t) :
    t.name = raw.chs.map (·.ch_name) ∧
    t.x = raw.chs.map (fun ch => match ch.loc with
      | some p => Cell.num p.1
      | none => Cell.na) ∧
    t.y = raw.chs.map (fun ch => match ch.loc with
      | some p => Cell.num p.2.1
      | none => Cell.na) ∧
    t.z = raw.chs.map (fun ch => match ch.loc with
      | some p => Cell.num p.2.2
      | none => Cell.na) := by
  unfold _electrodes_tsv at h
  split_ifs at h
  · simp only [Except.ok.injEq] at h
    subst h
    exact ⟨rfl, rfl, rfl, rfl⟩
  · simp only [Except.ok.injEq] at h
    subst h
    exact ⟨rfl, rfl, rfl, rfl⟩

lemma electrodes_tsv_ok_wf (raw : Raw) (dt : String) (t : ElectrodesTSV)
    (h : _electrodes_tsv raw dt = .ok t) : t.WF := by
  obtain ⟨h1, h2, h3, h4⟩ := electrodes_tsv_ok_shape raw dt t h
  refine ⟨?_, ?_, ?_⟩ <;> simp [h1, h2, h3, h4]

lemma coordsystem_json_eq_ieeg (raw : Raw) (u o cs : String)
    (j : List (String × JVal))
    (h : _coordsystem_json raw u o cs "ieeg" = .ok j) :
    j = [("iEEGCoordinateSystem", JVal.s cs),
         ("iEEGCoordinateSystemDescription",
          JVal.s ((dget COORD_FRAME_DESCRIPTIONS cs).getD "n/a")),
         ("iEEGCoordinateUnits", JVal.s u)] := by
  unfold _coordsystem_json at h
  by_cases hcard : 1 <
      (((raw.dig.getD []).map (·.coord_frame)).toFinset.card)
  · rw [if_pos hcard] at h
    exact absurd h (by simp)
  · rw [if_neg hcard, if_neg (by decide), if_neg (by decide),
      if_pos rfl] at h
    exact (Except.ok.inj h).symm

lemma coordsystem_json_eq_eeg (raw : Raw) (u o cs : String)
    (j : List (String × JVal))
    (h : _coordsystem_json raw u o cs "eeg" = .ok j) :
    j = [("EEGCoordinateSystem", JVal.s cs),
         ("EEGCoordinateUnits", JVal.s u),
         ("EEGCoordinateSystemDescription",
          JVal.s ((dget COORD_FRAME_DESCRIPTIONS cs).getD "n/a")),
         ("AnatomicalLandmarkCoordinates",
          JVal.coords (_extract_landmarks (raw.dig.getD []) ++
            coilCoords (raw.dig.getD []))),
         ("AnatomicalLandmarkCoordinateSystem", JVal.s cs),
         ("AnatomicalLandmarkCoordinateUnits", JVal.s u)] := by
  unfold _coordsystem_json at h
  by_cases hcard : 1 <
      (((raw.dig.getD []).map (·.coord_frame)).toFinset.card)
  · rw [if_pos hcard] at h
    exact absurd h (by simp)
  · rw [if_neg hcard, if_neg (by decide), if_pos rfl] at h
    exact (Except.ok.inj h).symm

lemma handle_coordsystem_ieeg_shape (cs d u : String) :
    _handle_coordsystem_reading
      [("iEEGCoordinateSystem", JVal.s cs),
       ("iEEGCoordinateSystemDescription", JVal.s d),
       ("iEEGCoordinateUnits", JVal.s u)] "ieeg" =
      .ok (pyLower cs, u) := rfl

lemma handle_coordsystem_eeg_shape (cs d u : String)
    (lm : List (String × (ℚ × ℚ × ℚ))) :
    _handle_coordsystem_reading
      [("EEGCoordinateSystem", JVal.s cs),
       ("EEGCoordinateUnits", JVal.s u),
       ("EEGCoordinateSystemDescription", JVal.s d),
       ("AnatomicalLandmarkCoordinates", JVal.coords lm),
       ("AnatomicalLandmarkCoordinateSystem", JVal.s cs),
       ("AnatomicalLandmarkCoordinateUnits", JVal.s u)] "eeg" =
      .ok (pyLower cs, u) := rfl

lemma write_tsv_mem (ep cp : BIDSPath) (root : String) (raw : Raw)
    (dt : String) (pe : BIDSPath) (t : ElectrodesTSV)
    (hmem : (pe, FileContent.tsv t) ∈
      wfiles (_write_dig_bids ep cp root raw dt)) :
    _electrodes_tsv raw dt = .ok t := by
  unfold _write_dig_bids at hmem
  dsimp only [get_entities_from_fname] at hmem
  split at hmem
  · exact absurd hmem (by simp [wfiles])
  · exact absurd hmem (by simp [wfiles])
  · split at hmem
    · exact absurd hmem (by simp [wfiles])
    · split at hmem
      · -- dt = "ieeg"
        split at hmem
        · -- coord_frame = some cf
          split at hmem
          · -- electrodes error
            exact absurd hmem (by simp [wfiles])
          · -- electrodes ok
            rename_i T0 heqT
            split at hmem
            · -- json error
              exact absurd hmem (by simp [wfiles])
            · -- json ok
              simp only [wfiles, List.mem_cons, List.mem_singleton,
                Prod.mk.injEq, FileContent.tsv.injEq,
                List.not_mem_nil, or_false] at hmem
              rcases hmem with ⟨h1, h2⟩ | ⟨h1, h2⟩
              · subst h2
                exact heqT
              · exact absurd h2 (by simp)
        · -- coord_frame = none
          exact absurd hmem (by simp [wfiles])
      · -- not ieeg
        split at hmem
        · -- dt = "eeg"
          split at hmem
          · -- condition holds
            split at hmem
            · exact absurd hmem (by simp [wfiles])
            · rename_i T0 heqT
              split at hmem
              · exact absurd hmem (by simp [wfiles])
              · simp only [wfiles, List.mem_cons, List.mem_singleton,
                  Prod.mk.injEq, FileContent.tsv.injEq,
                  List.not_mem_nil, or_false] at hmem
                rcases hmem with ⟨h1, h2⟩ | ⟨h1, h2⟩
                · subst h2
                  exact heqT
                · exact absurd h2 (by simp)
          · exact absurd hmem (by simp [wfiles])
        · exact absurd hmem (by simp [wfiles])


lemma write_json_mem (ep cp : BIDSPath) (root : String) (raw : Raw)
    (dt : String) (pc : BIDSPath) (j : List (String × JVal))
    (hmem : (pc, FileContent.json j) ∈
      wfiles (_write_dig_bids ep cp root raw dt)) :
    ∃ f, _handle_coordsystem_reading j dt = .ok (f, "m") := by
  unfold _write_dig_bids at hmem
  dsimp only [get_entities_from_fname] at hmem
  split at hmem
  · exact absurd hmem (by simp [wfiles])
  · exact absurd hmem (by simp [wfiles])
  · split at hmem
    · exact absurd hmem (by simp [wfiles])
    · split at hmem
      · -- dt = "ieeg"
        rename_i hdt
        split at hmem
        · -- coord_frame = some cf
          split at hmem
          · -- electrodes error
            exact absurd hmem (by simp [wfiles])
          · -- electrodes ok
            split at hmem
            · -- json error
              exact absurd hmem (by simp [wfiles])
            · -- json ok
              rename_i J0 heqJ
              simp only [wfiles, List.mem_cons, List.mem_singleton,
                Prod.mk.injEq, FileContent.json.injEq,
                List.not_mem_nil, or_false] at hmem
              rcases hmem with ⟨h1, h2⟩ | ⟨h1, h2⟩
              · exact absurd h2 (by simp)
              · subst h2
                subst hdt
                have hshape := coordsystem_json_eq_ieeg raw "m" "n/a" _ j heqJ
                rw [hshape]
                exact ⟨_, handle_coordsystem_ieeg_shape _ _ _⟩
        · -- coord_frame = none
          exact absurd hmem (by simp [wfiles])
      · -- not ieeg
        split at hmem
        · -- dt = "eeg"
          rename_i hdt
          split at hmem
          · -- condition holds
            split at hmem
            · exact absurd hmem (by simp [wfiles])
            · split at hmem
              · exact absurd hmem (by simp [wfiles])
              · rename_i J0 heqJ
                simp only [wfiles, List.mem_cons, List.mem_singleton,
                  Prod.mk.injEq, FileContent.json.injEq,
                  List.not_mem_nil, or_false] at hmem
                rcases hmem with ⟨h1, h2⟩ | ⟨h1, h2⟩
                · exact absurd h2 (by simp)
                · subst h2
                  subst hdt
                  have hshape :=
                    coordsystem_json_eq_eeg raw "m" "RAS" "CapTrak" j heqJ
                  rw [hshape]
                  exact ⟨_, handle_coordsystem_eeg_shape _ _ _ _⟩
          · exact absurd hmem (by simp [wfiles])
        · exact absurd hmem (by simp [wfiles])

lemma rowsOf_length (t : ElectrodesTSV) (hwf : t.WF) :
    (rowsOf t).length = t.name.length := by
  simp [rowsOf, convCol, hwf.1, hwf.2.1, hwf.2.2]

lemma handleElectrodes_ok_char (t : ElectrodesTSV) (cf cu : String)
    (fresh r2 : Raw) (w3 : List Warn) (hwf : t.WF)
    (h : _handle_electrodes_reading t cf cu fresh = .ok (r2, w3)) :
    fresh.ch_names = t.name ∧
    r2 = { fresh with montage := some (Montage.mk (dictOf (fresh.ch_names.zip (scaledRows t cu))) cf) } := by
  cases hc : checkChNames fresh.ch_names t.name with
  | error e =>
      unfold _handle_electrodes_reading at h
      dsimp only at h
      rw [hc] at h
      exact absurd h (by simp)
  | ok u =>
      cases u
      rcases (checkChNames_ok_iff _ _).mp hc with heq | hsti
      · refine ⟨heq, ?_⟩
        rw [handleElectrodes_eq t cf cu fresh hwf heq] at h
        have h2 := Except.ok.inj h
        exact (congrArg Prod.fst h2).symm
      · exfalso
        unfold _handle_electrodes_reading at h
        dsimp only at h
        rw [hc] at h
        dsimp only at h
        cases hf : pyFilter (t.x.map _float_or_nan) fresh.ch_names 0 with
        | error e =>
            rw [hf] at h
            exact absurd h (by simp)
        | ok r =>
            rcases pyFilter_ok_le _ _ _ _ hf with hle | hnil
            · rw [hsti] at hle
              rw [List.length_map, hwf.1] at hle
              simp only [List.length_append, List.length_singleton] at hle
              omega
            · rw [hsti] at hnil
              exact absurd hnil (by simp)

/-- C1 (amended): whenever `_write_dig_bids` emits the electrode table
and the coordinate-system descriptor, and `_read_dig_bids` of those two
files into a fresh recording (without prior montage, duplicate-free
channel names) attaches a montage, every channel with a location in the
original recording reappears at the same index of the montage with
exactly its original 3D coordinates.  (The write always declares the
unit `m`, so the reader's rescaling is the identity and the coordinates
are reproduced exactly.) -/
theorem C1_roundtrip (ep cp pe pc pe2 : BIDSPath) (root : String)
    (raw fresh raw2 : Raw) (dt : String) (t : ElectrodesTSV)
    (j : List (String × JVal)) (ws : List Warn) (m : Montage) (i : ℕ)
    (ch : Channel) (p : ℚ × ℚ × ℚ)
    (hWt : (pe, FileContent.tsv t) ∈
      wfiles (_write_dig_bids ep cp root raw dt))
    (hWj : (pc, FileContent.json j) ∈
      wfiles (_write_dig_bids ep cp root raw dt))
    (hread : _read_dig_bids pe2 t j fresh dt = .ok (raw2, ws))
    (hmf : fresh.montage = none)
    (hm : raw2.montage = some m)
    (hnd : fresh.ch_names.Nodup)
    (hch : raw.chs.get? i = some ch)
    (hloc : ch.loc = some p) :
    m.ch_pos.get? i =
      some (ch.ch_name, (some p.1, some p.2.1, some p.2.2)) := by
  have hT := write_tsv_mem ep cp root raw dt pe t hWt
  obtain ⟨f, hJ⟩ := write_json_mem ep cp root raw dt pc j hWj
  obtain ⟨hname, hx, hy, hz⟩ := electrodes_tsv_ok_shape raw dt t hT
  have hwf := electrodes_tsv_ok_wf raw dt t hT
  unfold _read_dig_bids at hread
  rw [hJ] at hread
  dsimp only [get_entities_from_fname] at hread
  rw [if_neg (by decide)] at hread
  rcases hs : (frame_resolution dt f (pyLower (pe2.space.getD ""))).1
    with _ | cf
  · rw [hs] at hread
    dsimp only at hread
    simp only [Except.ok.injEq, Prod.mk.injEq] at hread
    rw [← hread.1] at hm
    rw [hmf] at hm
    exact absurd hm (by simp)
  · rw [hs] at hread
    dsimp only at hread
    cases he : _handle_electrodes_reading t cf "m" fresh with
    | error e =>
        rw [he] at hread
        exact absurd hread (by simp)
    | ok pr =>
        rcases pr with ⟨r2, w3⟩
        rw [he] at hread
        simp only [Except.ok.injEq, Prod.mk.injEq] at hread
        obtain ⟨hnm, hchar⟩ :=
          handleElectrodes_ok_char t cf "m" fresh r2 w3 hwf he
        rw [hread.1] at hchar
        rw [hchar] at hm
        simp only [Option.some.injEq] at hm
        subst hm
        rw [scaledRows_m] at *
        have hlen : fresh.ch_names.length ≤ (rowsOf t).length := by
          rw [rowsOf_length t hwf, hnm]
        have hdict : dictOf (fresh.ch_names.zip (rowsOf t)) =
            fresh.ch_names.zip (rowsOf t) := by
          apply dictOf_eq_self
          rw [List.map_fst_zip _ _ hlen]
          exact hnd
        have hnameg : fresh.ch_names.get? i = some ch.ch_name := by
          rw [hnm, hname, List.get?_map, hch]
          rfl
        have hxg : (convCol t.x).get? i = some (some p.1) := by
          unfold convCol
          rw [hx]
          simp only [List.get?_map, hch, Option.map_some', hloc]
          rfl
        have hyg : (convCol t.y).get? i = some (some p.2.1) := by
          unfold convCol
          rw [hy]
          simp only [List.get?_map, hch, Option.map_some', hloc]
          rfl
        have hzg : (convCol t.z).get? i = some (some p.2.2) := by
          unfold convCol
          rw [hz]
          simp only [List.get?_map, hch, Option.map_some', hloc]
          rfl
        have hrow : (rowsOf t).get? i =
            some (some p.1, (some p.2.1, some p.2.2)) := by
          unfold rowsOf
          exact get?_zipWith _ _ _ _ _ _ hxg
            (get?_zipWith Prod.mk _ _ _ _ _ hyg hzg)
        show (Montage.mk (dictOf (fresh.ch_names.zip (rowsOf t))) cf).ch_pos.get? i = _
        rw [hdict]
        exact get?_zipWith Prod.mk _ _ _ _ _ hnameg hrow

end RoundTripLemmas

/-- A two-channel EEG recording with full landmarks in the head frame,
used to exhibit the round trip. -/
def c1wRaw : Raw :=
  { chs := [⟨"A", some (1, 2, 3)⟩, ⟨"B", none⟩],
    dig := some [⟨1, 1, 4, (0, 0, 0)⟩, ⟨1, 2, 4, (0, 1, 0)⟩,
                 ⟨1, 3, 4, (1, 0, 0)⟩],
    bads := [], impedances := none, montage := none }

/-- A fresh recording with the same channel names and no positions. -/
def c1wFresh : Raw :=
  { chs := [⟨"A", none⟩, ⟨"B", none⟩], dig := none, bads := [],
    impedances := none, montage := none }

/-- The electrodes path of the round-trip example. -/
def c1wEp : BIDSPath :=
  { subject := some "01", session := some "02",
    suffix := some "electrodes", extension := some ".tsv" }

/-- The coordsystem path of the round-trip example. -/
def c1wCp : BIDSPath :=
  { subject := some "01", session := some "02",
    suffix := some "coordsystem", extension := some ".json" }

/-- The electrode table the EEG write emits for `c1wRaw`. -/
def c1wTsv : ElectrodesTSV :=
  { name := ["A", "B"], x := [.num 1, .na], y := [.num 2, .na],
    z := [.num 3, .na], size := none, impedance := none }

/-- The descriptor document the EEG write emits for `c1wRaw`. -/
def c1wJson : List (String × JVal) :=
  [("EEGCoordinateSystem", JVal.s "CapTrak"),
   ("EEGCoordinateUnits", JVal.s "m"),
   ("EEGCoordinateSystemDescription", JVal.s "n/a"),
   ("AnatomicalLandmarkCoordinates",
    JVal.coords [("NAS", (0, 1, 0)), ("LPA", (0, 0, 0)),
                 ("RPA", (1, 0, 0))]),
   ("AnatomicalLandmarkCoordinateSystem", JVal.s "CapTrak"),
   ("AnatomicalLandmarkCoordinateUnits", JVal.s "m")]

/-- The montage the read attaches back onto the fresh recording. -/
def c1wM : Montage :=
  { ch_pos := [("A", (some 1, some 2, some 3)), ("B", (none, none, none))],
    coord_frame := "head" }

/-- The fresh recording after the read attached the montage. -/
def c1wRaw2 : Raw :=
  { chs := [⟨"A", none⟩, ⟨"B", none⟩], dig := none, bads := [],
    impedances := none, montage := some c1wM }

/-- C1 witness: the concrete EEG round trip, with channel `A` at
(1, 2, 3) reproduced exactly at index 0 of the montage. -/
theorem C1_roundtrip_witness :
    c1wM.ch_pos.get? 0 = some ("A", (some 1, some 2, some 3)) :=
  C1_roundtrip c1wEp c1wCp c1wEp c1wCp c1wEp "" c1wRaw c1wFresh c1wRaw2
    "eeg" c1wTsv c1wJson [Warn.nanChannels ["B"]] c1wM 0
    ⟨"A", some (1, 2, 3)⟩ (1, 2, 3)
    (by decide) (by decide) (by decide) rfl rfl (by decide) rfl rfl

/-- C1 counterexample: an iEEG recording digitized in the internal
`mri` frame — a combination the writer accepts — produces both sidecar
files (rerouted to `space-mri`, frame `Other`), but reading those files
back into a fresh recording with identical channel names attaches no
positions at all: the recording comes back unchanged, so the original
coordinates are not reproduced. -/
theorem C1_counterexample :
    _write_dig_bids
      ⟨some "01", some "02", none, none, some "electrodes", some ".tsv", ""⟩
      ⟨some "01", some "02", none, none, some "coordsystem", some ".json", ""⟩
      "" ⟨[⟨"C1", some (5, 6, 7)⟩], some [⟨3, 1, 5, (5, 6, 7)⟩], [],
          none, none⟩ "ieeg" =
      .ok ⟨[(⟨some "01", some "02", none, some "mri",
             some "electrodes", some ".tsv", ""⟩,
            FileContent.tsv ⟨["C1"], [.num 5], [.num 6], [.num 7],
              some [.na], none⟩),
           (⟨some "01", some "02", none, some "mri",
             some "coordsystem", some ".json", ""⟩,
            FileContent.json [("iEEGCoordinateSystem", JVal.s "Other"),
              ("iEEGCoordinateSystemDescription", JVal.s "n/a"),
              ("iEEGCoordinateUnits", JVal.s "m")])], []⟩ ∧
    _read_dig_bids
      ⟨some "01", some "02", none, some "mri",
       some "electrodes", some ".tsv", ""⟩
      ⟨["C1"], [.num 5], [.num 6], [.num 7], some [.na], none⟩
      [("iEEGCoordinateSystem", JVal.s "Other"),
       ("iEEGCoordinateSystemDescription", JVal.s "n/a"),
       ("iEEGCoordinateUnits", JVal.s "m")]
      ⟨[⟨"C1", none⟩], none, [], none, none⟩ "ieeg" =
      .ok (⟨[⟨"C1", none⟩], none, [], none, none⟩,
           [Warn.ieegDefaultUnknown "other"]) ∧
    Raw.montage ⟨[⟨"C1", none⟩], none, [], none, none⟩ = none := by
  refine ⟨?_, ?_, rfl⟩
  · rfl
  · rfl

end MneBids
